import Mathlib

/-!
Verification development for the planka-mcp repository.

The repository exposes a Planka kanban backend as MCP tools.  The two
aggregator cores (board summary, time-windowed activity feed) and the
composite write helpers are embedded shallowly below: each network fetch
is represented by an `Except String` value supplied by a backend record,
and the TypeScript control flow is translated function by function.

Conventions of the embedding:
* timestamps are modelled as instants (`Int`, e.g. epoch milliseconds);
  the source stores ISO strings but always compares them via
  `new Date(s).getTime()`;
* a JavaScript value that is checked for truthiness before use
  (`comment.userId`, `params.comment`, nullable list names) is modelled
  as an `Option`, with `none` standing for any falsy value;
* a fallible REST call is an `Except String` result; accessors that
  swallow their own errors (returning `[]`) are translated accordingly.
-/

namespace BS

/-- A Planka board record (relevant fields). -/
structure PBoard where
  id : String
  name : String
deriving DecidableEq, Repr

/-- A Planka list record; `name` is nullable (archive/trash lists). -/
structure PList where
  id : String
  name : Option String
deriving DecidableEq, Repr

/-- A Planka card record as consumed by the board summary;
`labelIds` may be absent (the source guards with `card.labelIds?.some`). -/
structure PCard where
  id : String
  name : String
  labelIds : Option (List String)
deriving DecidableEq, Repr

/-- A Planka task record (relevant fields). -/
structure PTask where
  id : String
  isCompleted : Bool
deriving DecidableEq, Repr

/-- A Planka comment record (relevant fields). -/
structure PComment where
  id : String
  text : String
deriving DecidableEq, Repr

/-- A Planka label record; `name` is nullable. -/
structure PLabel where
  id : String
  name : Option String
deriving DecidableEq, Repr

/-- The backend: one `Except`-valued response per REST fetch issued by
`getBoardSummary` and the accessors it calls. -/
structure Backend where
  boardResp : Except String (Option PBoard)
  listsResp : Except String (List PList)
  cardsResp : String → Except String (List PCard)
  tasksResp : String → Except String (List PTask)
  commentsResp : String → Except String (List PComment)
  labelsResp : Except String (List PLabel)

/-- Boolean success test for an `Except` result. -/
def isOkB {α : Type} (e : Except String α) : Bool :=
  match e with
  | .ok _ => true
  | .error _ => false

/-- Modelled from the spec: `getBoard(boardId) -> Board | not-found`
(src/operations/boards.ts is not part of the provided sources).  The
fetch may fail, succeed with the board, or succeed with no board. -/
def getBoard (be : Backend) : Except String (Option PBoard) :=
  be.boardResp

/-- Embeds `getLists` (src/operations/lists.ts lines 116-143): any fetch
error or unexpected shape yields an empty array. -/
def getLists (be : Backend) : List PList :=
  match be.listsResp with
  | .ok l => l
  | .error _ => []

/-- Embeds `getCards` (src/operations/cards.ts lines 180-260): any fetch
error or unexpected shape yields an empty array. -/
def getCards (be : Backend) (listId : String) : List PCard :=
  match be.cardsResp listId with
  | .ok l => l
  | .error _ => []

/-- Embeds `getTasks` (src/operations/tasks.ts lines 285-310): any fetch
error yields an empty array. -/
def getTasks (be : Backend) (cardId : String) : List PTask :=
  match be.tasksResp cardId with
  | .ok l => l
  | .error _ => []

/-- Embeds `getComments` (src/operations/comments.ts lines 133-149): any
fetch error yields an empty array. -/
def getComments (be : Backend) (cardId : String) : List PComment :=
  match be.commentsResp cardId with
  | .ok l => l
  | .error _ => []

/-- Embeds `getLabels` (src/operations/labels.ts lines 199-227): any
fetch error or unexpected shape yields an empty array. -/
def getLabels (be : Backend) : List PLabel :=
  match be.labelsResp with
  | .ok l => l
  | .error _ => []

/-- Embeds the inline percentage computation used at both sites of
board-summary.ts (`Math.round((x / y) * 100)` guarded by `y > 0`,
lines 98-100 and 183-185).  `round` on `ℚ` is `⌊q + 1/2⌋`, matching
`Math.round` on the non-negative values arising here. -/
def completionPct (completed total : Nat) : ℤ :=
  if 0 < total then round ((completed : ℚ) / (total : ℚ) * 100) else 0

/-- The per-card task block attached when `includeTaskDetails` is set. -/
structure TaskBlock where
  items : List PTask
  total : Nat
  completed : Nat
  completionPercentage : ℤ
deriving DecidableEq, Repr

/-- A card enriched by `getBoardSummary` (source lines 102-115):
`tasks`/`comments` are `undefined` (`none`) when the flag is off. -/
structure CardSummary where
  card : PCard
  tasks : Option TaskBlock
  comments : Option (List PComment)
deriving DecidableEq, Repr

/-- A list together with its enriched cards and card count. -/
structure ListSummary where
  list : PList
  cards : List CardSummary
  cardCount : Nat
deriving DecidableEq, Repr

/-- The `stats` block of the summary (source lines 175-186). -/
structure Stats where
  totalCards : Nat
  backlogCount : Nat
  inProgressCount : Nat
  testingCount : Nat
  doneCount : Nat
  urgentCount : Nat
  bugCount : Nat
  completionPercentage : ℤ
deriving DecidableEq, Repr

/-- The `workflowState` block of the summary (source lines 187-196). -/
structure WorkflowState where
  hasCardsInBacklog : Bool
  hasCardsInProgress : Bool
  hasCardsInTesting : Bool
  nextActionSuggestion : String
deriving DecidableEq, Repr

/-- The full board summary result. -/
structure BoardSummary where
  board : PBoard
  lists : List ListSummary
  labels : List PLabel
  stats : Stats
  workflowState : WorkflowState
deriving DecidableEq, Repr

/-- Embeds JavaScript `toLowerCase()` for the ASCII list/label names the
summary compares against: lower-case every character.  (Equivalent to
`String.toLower`, but stated over the character list so that it reduces
definitionally.) -/
def lowerStr (s : String) : String :=
  ⟨s.data.map Char.toLower⟩

/-- Embeds `list.name?.toLowerCase() === target` (source lines 137-148):
a null name never matches. -/
def nameMatches (n : Option String) (target : String) : Bool :=
  match n with
  | some s => lowerStr s == target
  | none => false

/-- Embeds `listsWithCards.find(list => list.name?.toLowerCase() === t)`. -/
def findListByName (lists : List ListSummary) (target : String) : Option ListSummary :=
  lists.find? (fun l => nameMatches l.list.name target)

/-- Embeds `xxxList?.cardCount || 0`. -/
def countOf (o : Option ListSummary) : Nat :=
  match o with
  | some l => l.cardCount
  | none => 0

/-- Embeds `getNextActionSuggestion` (board-summary.ts lines 212-226). -/
def getNextActionSuggestion (backlogCount inProgressCount testingCount : Nat) : String :=
  if 0 < testingCount then "Review cards in Testing that need feedback"
  else if 0 < inProgressCount then "Continue working on cards in In Progress"
  else if 0 < backlogCount then "Start working on a card from Backlog"
  else "All tasks complete! Create new cards or projects"

/-- The suggestion exactly as `getBoardSummary` computes it from its
enriched lists (source lines 191-195): counts of the first lists whose
names case-insensitively match the three reserved names. -/
def suggestionFor (lists : List ListSummary) : String :=
  getNextActionSuggestion
    (countOf (findListByName lists "backlog"))
    (countOf (findListByName lists "in progress"))
    (countOf (findListByName lists "testing"))

/-- Embeds `card.labelIds?.some(labelId => boardLabels.find(label =>
label.id === labelId && label.name?.toLowerCase() === target))`
(source lines 151-169). -/
def cardHasLabelNamed (boardLabels : List PLabel) (target : String) (card : PCard) : Bool :=
  (card.labelIds.getD []).any (fun labelId =>
    boardLabels.any (fun lab => lab.id == labelId && nameMatches lab.name target))

/-- Embeds the urgent/bug card counts over `flatMap(list => list.cards)`. -/
def countCardsWithLabel (lists : List ListSummary) (boardLabels : List PLabel)
    (target : String) : Nat :=
  (((lists.map (fun l => l.cards)).flatten).filter
    (fun cs => cardHasLabelNamed boardLabels target cs.card)).length

/-- Embeds the per-card enrichment of `getBoardSummary`
(board-summary.ts lines 81-115). -/
def summarizeCard (be : Backend) (includeTaskDetails includeComments : Bool)
    (card : PCard) : CardSummary :=
  let taskDetails := if includeTaskDetails then getTasks be card.id else []
  let cardComments := if includeComments then getComments be card.id else []
  let completedTasks := (taskDetails.filter (fun t => t.isCompleted)).length
  let totalTasks := taskDetails.length
  { card := card
    tasks :=
      if includeTaskDetails then
        some
          { items := taskDetails
            total := totalTasks
            completed := completedTasks
            completionPercentage := completionPct completedTasks totalTasks }
      else none
    comments := if includeComments then some cardComments else none }

/-- Embeds the per-list enrichment of `getBoardSummary`
(board-summary.ts lines 76-124). -/
def summarizeList (be : Backend) (includeTaskDetails includeComments : Bool)
    (l : PList) : ListSummary :=
  let listCards := getCards be l.id
  let cardsWithDetails := listCards.map (summarizeCard be includeTaskDetails includeComments)
  { list := l, cards := cardsWithDetails, cardCount := cardsWithDetails.length }

/-- Embeds `getBoardSummary` (src/tools/board-summary.ts lines 60-202).
The only fallible steps are the board fetch and the board-existence
check; every nested accessor swallows its own errors (see the accessor
embeddings above), so the traversal itself is total. -/
def getBoardSummary (be : Backend) (boardId : String)
    (includeTaskDetails includeComments : Bool) : Except String BoardSummary :=
  match getBoard be with
  | .error e => .error e
  | .ok none => .error ("Board with ID " ++ boardId ++ " not found")
  | .ok (some board) =>
    let allLists := getLists be
    let listsWithCards := allLists.map (summarizeList be includeTaskDetails includeComments)
    let boardLabels := getLabels be
    let totalCards := listsWithCards.foldl (fun sum l => sum + l.cardCount) 0
    let backlogList := findListByName listsWithCards "backlog"
    let inProgressList := findListByName listsWithCards "in progress"
    let testingList := findListByName listsWithCards "testing"
    let doneList := findListByName listsWithCards "done"
    let urgentCards := countCardsWithLabel listsWithCards boardLabels "urgent"
    let bugCards := countCardsWithLabel listsWithCards boardLabels "bug"
    .ok
      { board := board
        lists := listsWithCards
        labels := boardLabels
        stats :=
          { totalCards := totalCards
            backlogCount := countOf backlogList
            inProgressCount := countOf inProgressList
            testingCount := countOf testingList
            doneCount := countOf doneList
            urgentCount := urgentCards
            bugCount := bugCards
            completionPercentage := completionPct (countOf doneList) totalCards }
        workflowState :=
          { hasCardsInBacklog := 0 < countOf backlogList
            hasCardsInProgress := 0 < countOf inProgressList
            hasCardsInTesting := 0 < countOf testingList
            nextActionSuggestion := suggestionFor listsWithCards } }

/-- A concrete backend on which the board itself is found but every
nested-collection fetch that the claim mentions fails: the cards of
list `l2`, the tasks and comments of card `c1`, and the board's labels.
Used to exercise the failure policy. -/
def cexBackend : Backend :=
  { boardResp := .ok (some { id := "b1", name := "Board One" })
    listsResp := .ok [{ id := "l1", name := none }, { id := "l2", name := none }]
    cardsResp := fun lid =>
      if lid == "l1" then .ok [{ id := "c1", name := "Card One", labelIds := none }]
      else .error "network error fetching cards"
    tasksResp := fun _ => .error "network error fetching tasks"
    commentsResp := fun _ => .error "network error fetching comments"
    labelsResp := .error "network error fetching labels" }

/-- The summary `getBoardSummary` produces on `cexBackend` with both
flags set. -/
def cexExpected : BoardSummary :=
  { board := { id := "b1", name := "Board One" }
    lists :=
      [{ list := { id := "l1", name := none }
         cards :=
           [{ card := { id := "c1", name := "Card One", labelIds := none }
              tasks := some { items := [], total := 0, completed := 0, completionPercentage := 0 }
              comments := some [] }]
         cardCount := 1 },
       { list := { id := "l2", name := none }
         cards := []
         cardCount := 0 }]
    labels := []
    stats :=
      { totalCards := 1, backlogCount := 0, inProgressCount := 0, testingCount := 0
        doneCount := 0, urgentCount := 0, bugCount := 0, completionPercentage := 0 }
    workflowState :=
      { hasCardsInBacklog := false, hasCardsInProgress := false, hasCardsInTesting := false
        nextActionSuggestion := "All tasks complete! Create new cards or projects" } }

end BS

namespace CCWT

/-- The card record returned by `createCard` (relevant field). -/
structure CardRec where
  id : String
deriving DecidableEq, Repr

/-- The task record returned by `createTask`. -/
structure TaskRec where
  id : String
deriving DecidableEq, Repr

/-- The comment record returned by `createComment`. -/
structure CommentRec where
  id : String
deriving DecidableEq, Repr

/-- One REST write issued by `createCardWithTasks`.  The source never
issues a delete; `deleteResource` is included so that the absence of
compensating deletes is expressible. -/
inductive ApiCall where
  | createCard (listId name description : String) (position : Int)
  | createTask (cardId name : String) (position : Int)
  | createComment (cardId text : String)
  | deleteResource (path : String)
deriving DecidableEq, Repr

/-- Whether a call is a delete. -/
def ApiCall.isDelete : ApiCall → Bool
  | .deleteResource _ => true
  | _ => false

/-- Backend for the composite helper: the outcome of the card creation,
of the i-th task creation (given the task name), and of the comment
creation. -/
structure Backend where
  cardResult : Except String CardRec
  taskResult : Nat → String → Except String TaskRec
  commentResult : Except String CommentRec

/-- Parameters of `createCardWithTasks`
(src/tools/create-card-with-tasks.ts lines 15-31).  Optional strings
checked for truthiness in the source (`description || ""`, `if
(comment)`) are `Option`s with `none` for any falsy value. -/
structure Params where
  listId : String
  name : String
  description : Option String
  tasks : Option (List String)
  comment : Option String
  position : Option Int

/-- Embeds the task-creation loop of `createCardWithTasks`
(source lines 71-85): tasks are created in input order, the i-th
(0-based) at position `65535 * (i + 1)`; the first failure aborts the
loop with that error. -/
def createTasksLoop (be : Backend) (cardId : String) :
    List String → Nat → List TaskRec → List ApiCall →
    List ApiCall × Except String (List TaskRec)
  | [], _, acc, trace => (trace, .ok acc)
  | n :: rest, i, acc, trace =>
    let taskPosition : Int := 65535 * ((i : Int) + 1)
    let trace1 := trace ++ [ApiCall.createTask cardId n taskPosition]
    match be.taskResult i n with
    | .error e => (trace1, .error e)
    | .ok t => createTasksLoop be cardId rest (i + 1) (acc ++ [t]) trace1

/-- The result shape of `createCardWithTasks` (source lines 96-100). -/
structure Result where
  card : CardRec
  tasks : List TaskRec
  comment : Option CommentRec
deriving DecidableEq, Repr

/-- Embeds `createCardWithTasks`
(src/tools/create-card-with-tasks.ts lines 56-105), paired with the
trace of REST writes it issues.  Errors from any step propagate to the
caller unchanged (the catch block rethrows); no step undoes an earlier
write. -/
def createCardWithTasks (be : Backend) (p : Params) :
    List ApiCall × Except String Result :=
  let position := p.position.getD 65535
  let trace0 := [ApiCall.createCard p.listId p.name (p.description.getD "") position]
  match be.cardResult with
  | .error e => (trace0, .error e)
  | .ok card =>
    let step2 : List ApiCall × Except String (List TaskRec) :=
      match p.tasks with
      | some ts =>
        if 0 < ts.length then createTasksLoop be card.id ts 0 [] trace0
        else (trace0, .ok [])
      | none => (trace0, .ok [])
    match step2 with
    | (trace1, .error e) => (trace1, .error e)
    | (trace1, .ok createdTasks) =>
      match p.comment with
      | some ctext =>
        let trace2 := trace1 ++ [ApiCall.createComment card.id ctext]
        (match be.commentResult with
         | .error e => (trace2, .error e)
         | .ok cm => (trace2, .ok { card := card, tasks := createdTasks, comment := some cm }))
      | none => (trace1, .ok { card := card, tasks := createdTasks, comment := none })

/-- Whether a call is a task creation. -/
def ApiCall.isCreateTask : ApiCall → Bool
  | .createTask _ _ _ => true
  | _ => false

/-- The createTask calls expected for `names` when the loop index starts
at `i0`: the j-th local element is created at global index `i0 + j`,
i.e. at position `65535 * (i0 + j + 1)`. -/
def expectedTaskCallsFrom (cardId : String) (names : List String) (i0 : Nat) : List ApiCall :=
  (List.range names.length).map
    (fun j => ApiCall.createTask cardId (names.getD j "") (65535 * (((i0 + j : Nat) : Int) + 1)))

end CCWT

namespace RLC

/-- A card-label association record as returned inside
`cardResponse.included.cardLabels`. -/
structure CardLabel where
  id : String
  cardId : String
  labelId : String
deriving DecidableEq, Repr

/-- One REST call issued by `removeLabelFromCard`. -/
inductive Call where
  | getCard (cardId : String)
  | deleteCardLabel (cardLabelId : String)
deriving DecidableEq, Repr

/-- Whether a call is the DELETE to the card-labels endpoint. -/
def Call.isDelete : Call → Bool
  | .deleteCardLabel _ => true
  | _ => false

/-- Backend for `removeLabelFromCard`: the card fetch yields the
`included.cardLabels` array (`[]` when the field is absent, per
`cardResponse?.included?.cardLabels || []`); `deleteResp` is the outcome
of deleting a given card-label id. -/
structure Backend where
  cardResp : Except String (List CardLabel)
  deleteResp : String → Except String Unit

/-- The success value returned by `removeLabelFromCard`. -/
structure RemoveResult where
  success : Bool
  message : Option String
deriving DecidableEq, Repr

/-- Embeds `removeLabelFromCard` (src/operations/labels.ts lines
314-358), paired with the trace of REST calls it issues. -/
def removeLabelFromCard (be : Backend) (cardId labelId : String) :
    List Call × Except String RemoveResult :=
  let trace0 := [Call.getCard cardId]
  match be.cardResp with
  | .error e =>
    (trace0, .error ("Failed to remove label from card: " ++ e))
  | .ok cardLabels =>
    match cardLabels.find? (fun cl => cl.cardId == cardId && cl.labelId == labelId) with
    | none => (trace0, .ok { success := true, message := some "Label was not on card" })
    | some cl =>
      let trace1 := trace0 ++ [Call.deleteCardLabel cl.id]
      match be.deleteResp cl.id with
      | .ok _ => (trace1, .ok { success := true, message := none })
      | .error _ =>
        (trace1, .error "Failed to remove label from card: Cannot remove label - this may be a Planka version limitation.")

end RLC

namespace Feed

/-- A task as seen by the activity feed.  Timestamps are instants;
`none` models a missing or unparsable date (never in-window). -/
structure Task where
  id : String
  createdAt : Option Int
  updatedAt : Option Int
  isCompleted : Bool
deriving DecidableEq, Repr

/-- A comment as seen by the activity feed.  `userId = none` models a
falsy (absent or empty) user id, which the source skips. -/
structure Comment where
  id : String
  createdAt : Option Int
  userId : Option String
  text : String
deriving DecidableEq, Repr

/-- A card as seen by the activity feed, together with the outcomes of
the task and comment fetches issued for it; a fetch error is swallowed
(`catch { /* ignore */ }`, activity-feed.ts lines 199-201 and 227-229). -/
structure Card where
  id : String
  name : String
  createdAt : Option Int
  updatedAt : Option Int
  isCompleted : Bool
  tasksResp : Except String (List Task)
  commentsResp : Except String (List Comment)

/-- A list with its cards (the `getLists`/`getCards` accessors swallow
their own fetch errors and return `[]`, so the lists and cards seen by
the traversal are plain values). -/
structure BList where
  id : String
  cards : List Card

/-- A board with its lists. -/
structure Board where
  id : String
  lists : List BList

/-- The tasks actually iterated for a card (fetch error ⇒ none). -/
def tasksOf (c : Card) : List Task :=
  match c.tasksResp with
  | .ok ts => ts
  | .error _ => []

/-- The comments actually iterated for a card (fetch error ⇒ none). -/
def commentsOf (c : Card) : List Comment :=
  match c.commentsResp with
  | .ok ms => ms
  | .error _ => []

/-- Embeds `isWithinRange` (activity-feed.ts lines 78-82): inclusive on
both ends, false for a missing date. -/
def isWithinRange (d : Option Int) (lo hi : Int) : Bool :=
  match d with
  | none => false
  | some t => decide (lo ≤ t) && decide (t ≤ hi)

/-- Embeds `truncateText` (activity-feed.ts lines 70-73). -/
def truncateText (text : String) (maxLength : Nat) : String :=
  if text.length ≤ maxLength then text
  else (text.take (maxLength - 3)) ++ "..."

/-- The six event kinds of the feed. -/
inductive EventType where
  | card_created
  | card_updated
  | card_completed
  | comment_added
  | task_created
  | task_completed
deriving DecidableEq, Repr

/-- One entry of the `changes` array. -/
structure ActivityEntry where
  timestamp : Int
  type : EventType
  boardId : String
  listId : Option String
  cardId : String
  taskId : Option String
  commentId : Option String
  userId : Option String
  preview : Option String
deriving DecidableEq, Repr

/-- One entry of the `affectedCards` array. -/
structure AffectedCard where
  cardId : String
  cardName : String
  boardId : String
  listId : String
deriving DecidableEq, Repr

/-- The mutable accumulation state of the traversal:  the `changes`
array in traversal order, the affected-cards map in insertion order,
the user-id set in insertion order, and the six counters. -/
structure FeedState where
  changes : List ActivityEntry
  affected : List AffectedCard
  userIds : List String
  newCards : Nat
  updatedCards : Nat
  completedCards : Nat
  newComments : Nat
  newTasks : Nat
  completedTasks : Nat

/-- The state at the start of the traversal. -/
def initState : FeedState :=
  { changes := [], affected := [], userIds := []
    newCards := 0, updatedCards := 0, completedCards := 0
    newComments := 0, newTasks := 0, completedTasks := 0 }

/-- Embeds `userIdsSet.add(u)` (a JS `Set` keeps insertion order). -/
def addUserId (ids : List String) (u : String) : List String :=
  if u ∈ ids then ids else ids ++ [u]

/-- Embeds `affectedCardsMap.set(cardId, entry)` (a JS `Map` updates the
value in place for an existing key, else appends). -/
def setAffected (m : List AffectedCard) (a : AffectedCard) : List AffectedCard :=
  if m.any (fun x => x.cardId == a.cardId) then
    m.map (fun x => if x.cardId == a.cardId then a else x)
  else m ++ [a]

/-- Embeds the card-level event classification of the feed
(activity-feed.ts lines 132-169): creation takes priority over update,
and an in-window update is a completion when `isCompleted` holds.
Returns the updated state and the `cardHasChanges` flag. -/
def cardPhase (lo hi : Int) (boardId listId : String) (s : FeedState) (c : Card) :
    FeedState × Bool :=
  if isWithinRange c.createdAt lo hi then
    ({ s with
        changes := s.changes ++
          [{ timestamp := c.createdAt.getD 0, type := .card_created, boardId := boardId
             listId := some listId, cardId := c.id, taskId := none, commentId := none
             userId := none, preview := none }]
        newCards := s.newCards + 1 }, true)
  else if isWithinRange c.updatedAt lo hi then
    if c.isCompleted && c.updatedAt.isSome then
      ({ s with
          changes := s.changes ++
            [{ timestamp := c.updatedAt.getD 0, type := .card_completed, boardId := boardId
               listId := some listId, cardId := c.id, taskId := none, commentId := none
               userId := none, preview := none }]
          completedCards := s.completedCards + 1 }, true)
    else
      ({ s with
          changes := s.changes ++
            [{ timestamp := c.updatedAt.getD 0, type := .card_updated, boardId := boardId
               listId := some listId, cardId := c.id, taskId := none, commentId := none
               userId := none, preview := none }]
          updatedCards := s.updatedCards + 1 }, true)
  else (s, false)

/-- Embeds one iteration of the task loop (activity-feed.ts lines
174-198). -/
def taskStep (lo hi : Int) (boardId listId cardId : String)
    (sb : FeedState × Bool) (t : Task) : FeedState × Bool :=
  let s := sb.1
  let hc := sb.2
  if isWithinRange t.createdAt lo hi then
    ({ s with
        changes := s.changes ++
          [{ timestamp := t.createdAt.getD 0, type := .task_created, boardId := boardId
             listId := some listId, cardId := cardId, taskId := some t.id
             commentId := none, userId := none, preview := none }]
        newTasks := s.newTasks + 1 }, true)
  else if t.isCompleted && isWithinRange t.updatedAt lo hi then
    ({ s with
        changes := s.changes ++
          [{ timestamp := t.updatedAt.getD 0, type := .task_completed, boardId := boardId
             listId := some listId, cardId := cardId, taskId := some t.id
             commentId := none, userId := none, preview := none }]
        completedTasks := s.completedTasks + 1 }, true)
  else (s, hc)

/-- Embeds one iteration of the comment loop (activity-feed.ts lines
206-226): a full entry is materialized only while fewer than
`maxComments` in-window comments have been counted, but the counter,
the user-id set and the change flag always advance. -/
def commentStep (maxComments : Int) (lo hi : Int) (boardId listId cardId : String)
    (sb : FeedState × Bool) (m : Comment) : FeedState × Bool :=
  let s := sb.1
  let hc := sb.2
  if isWithinRange m.createdAt lo hi then
    let s1 :=
      if (s.newComments : Int) < maxComments then
        { s with
            changes := s.changes ++
              [{ timestamp := m.createdAt.getD 0, type := .comment_added, boardId := boardId
                 listId := some listId, cardId := cardId, taskId := none
                 commentId := some m.id, userId := m.userId
                 preview := some (truncateText m.text 100) }] }
      else s
    let s2 :=
      match m.userId with
      | some u => { s1 with userIds := addUserId s1.userIds u }
      | none => s1
    ({ s2 with newComments := s2.newComments + 1 }, true)
  else (s, hc)

/-- Embeds the per-card body of the traversal (activity-feed.ts lines
125-240): card events, then tasks, then comments, then the
affected-card map update when anything changed. -/
def processCard (maxComments : Int) (lo hi : Int) (boardId listId : String)
    (s : FeedState) (c : Card) : FeedState :=
  let sb1 := cardPhase lo hi boardId listId s c
  let sb2 := (tasksOf c).foldl (taskStep lo hi boardId listId c.id) sb1
  let sb3 := (commentsOf c).foldl (commentStep maxComments lo hi boardId listId c.id) sb2
  if sb3.2 then
    { sb3.1 with
        affected := setAffected sb3.1.affected
          { cardId := c.id, cardName := c.name, boardId := boardId, listId := listId } }
  else sb3.1

/-- Embeds the per-list loop (activity-feed.ts lines 121-241). -/
def processList (maxComments : Int) (lo hi : Int) (boardId : String)
    (s : FeedState) (l : BList) : FeedState :=
  l.cards.foldl (processCard maxComments lo hi boardId l.id) s

/-- Embeds the per-board loop (activity-feed.ts lines 114-242). -/
def processBoard (maxComments : Int) (lo hi : Int)
    (s : FeedState) (b : Board) : FeedState :=
  b.lists.foldl (processList maxComments lo hi b.id) s

/-- The descending-timestamp comparison used by the final sort
(`(a, b) => new Date(b.timestamp).getTime() - new Date(a.timestamp).getTime()`). -/
def tsGE (a b : ActivityEntry) : Prop :=
  b.timestamp ≤ a.timestamp

instance : DecidableRel tsGE := fun a b => Int.decLe b.timestamp a.timestamp

instance : IsTotal ActivityEntry tsGE := ⟨fun a b => le_total b.timestamp a.timestamp⟩

instance : IsTrans ActivityEntry tsGE := ⟨fun _ _ _ h1 h2 => le_trans h2 h1⟩

/-- Embeds `changes.sort(...)` (activity-feed.ts line 245).  JavaScript
`Array.prototype.sort` is specified to be stable; insertion sort with
the descending comparison realizes exactly that contract. -/
def sortByTimestampDesc (l : List ActivityEntry) : List ActivityEntry :=
  List.insertionSort tsGE l

/-- The result shape of `getActivityFeed` (activity-feed.ts lines
42-65), omitting the echoed query block. -/
structure FeedResult where
  totalChanges : Nat
  newCards : Nat
  updatedCards : Nat
  completedCards : Nat
  newComments : Nat
  newTasks : Nat
  completedTasks : Nat
  changes : List ActivityEntry
  affectedCards : List AffectedCard
  userIds : List String

/-- Embeds `getActivityFeed` (src/tools/activity-feed.ts lines 87-271):
a failure listing the project's boards aborts the whole call with a
wrapped error (`getBoards` lives in src/operations/boards.ts, outside
the provided sources; per the spec it is a plain fallible list fetch,
so its outcome is the `boardsResp` input); everything below board level
has its errors swallowed as modelled in the card records. -/
def getActivityFeed (maxComments : Int) (lo hi : Int)
    (boardsResp : Except String (List Board)) : Except String FeedResult :=
  match boardsResp with
  | .error e => .error ("Failed to get activity feed: " ++ e)
  | .ok boards =>
    let s := boards.foldl (processBoard maxComments lo hi) initState
    let sorted := sortByTimestampDesc s.changes
    .ok
      { totalChanges := sorted.length
        newCards := s.newCards
        updatedCards := s.updatedCards
        completedCards := s.completedCards
        newComments := s.newComments
        newTasks := s.newTasks
        completedTasks := s.completedTasks
        changes := sorted
        affectedCards := s.affected
        userIds := s.userIds }

/-- Count of entries of a given kind. -/
def typeCount (ty : EventType) (l : List ActivityEntry) : Nat :=
  l.countP (fun e => decide (e.type = ty))

/-- Specification-side count (for comparison with the code's
`newComments` counter): the in-window comments of one card. -/
def specCardCommentCount (lo hi : Int) (c : Card) : Nat :=
  (commentsOf c).countP (fun m => isWithinRange m.createdAt lo hi)

/-- Specification-side count: the in-window comments of one list. -/
def specListCommentCount (lo hi : Int) (l : BList) : Nat :=
  (l.cards.map (specCardCommentCount lo hi)).sum

/-- Specification-side count: the in-window comments of one board. -/
def specBoardCommentCount (lo hi : Int) (b : Board) : Nat :=
  (b.lists.map (specListCommentCount lo hi)).sum

/-- Specification-side count: the total number of in-window comments
across all traversed cards of the project. -/
def specInWindowCommentCount (lo hi : Int) (boards : List Board) : Nat :=
  (boards.map (specBoardCommentCount lo hi)).sum

/-- The card ids present in the affected-cards map. -/
def affectedIds (s : FeedState) : List String :=
  s.affected.map (fun a => a.cardId)

/-- The invariant tying the traversal counters to the entries pushed so
far: each card/task counter equals the number of entries of its kind,
and the number of materialized comment entries is the comment counter
clipped at the cap. -/
def countsInv (maxComments : Int) (s : FeedState) : Prop :=
  typeCount .card_created s.changes = s.newCards ∧
  typeCount .card_updated s.changes = s.updatedCards ∧
  typeCount .card_completed s.changes = s.completedCards ∧
  typeCount .task_created s.changes = s.newTasks ∧
  typeCount .task_completed s.changes = s.completedTasks ∧
  typeCount .comment_added s.changes = min s.newComments maxComments.toNat

end Feed

section Helpers

/-- A property preserved by every step of a fold holds at the end if it
holds at the start. -/
theorem foldl_preserve {σ α : Type _} (f : σ → α → σ) (P : σ → Prop)
    (h : ∀ s x, P s → P (f s x)) :
    ∀ (xs : List α) (s : σ), P s → P (xs.foldl f s)
  | [], _, hs => hs
  | x :: xs, s, hs => foldl_preserve f P h xs (f s x) (h s x hs)

/-- A property established unconditionally by one element of a fold and
preserved by every step holds at the end. -/
theorem foldl_establish {σ α : Type _} (f : σ → α → σ) (P : σ → Prop)
    (hpres : ∀ s x, P s → P (f s x)) (x : α) (hest : ∀ s, P (f s x)) :
    ∀ (xs : List α) (s : σ), x ∈ xs → P (xs.foldl f s)
  | y :: xs, s, hx => by
    rcases List.mem_cons.mp hx with h | h
    · subst h
      exact foldl_preserve f P hpres xs (f s x) (hest s)
    · exact foldl_establish f P hpres x hest xs (f s y) h

end Helpers

/-- C5: the board-level completion percentage is 0 when there are no
cards and `round(100 * done / total)` otherwise (e.g. 1 of 3 gives 33),
and the per-card task percentage uses the same rule; both sites of the
summary compute `BS.completionPct`. -/
theorem boardSummary_completionPct :
    (∀ c : Nat, BS.completionPct c 0 = 0) ∧
    (∀ c t : Nat, 0 < t →
      BS.completionPct c t = round ((100 * (c : ℚ)) / (t : ℚ))) ∧
    BS.completionPct 1 3 = 33 := by
  refine ⟨fun c => by simp [BS.completionPct], fun c t ht => ?_, ?_⟩
  · rw [BS.completionPct, if_pos ht]
    congr 1
    ring
  · norm_num [BS.completionPct, round_eq]

/-- Witness for `boardSummary_completionPct` at concrete inputs. -/
theorem boardSummary_completionPct_witness :
    BS.completionPct 7 0 = 0 ∧
    BS.completionPct 2 8 = round ((100 * (2 : ℚ)) / (8 : ℚ)) :=
  ⟨boardSummary_completionPct.1 7,
   boardSummary_completionPct.2.1 2 8 (by decide)⟩

/-- C6: the next-action suggestion follows the first-match priority
chain Testing → In Progress → Backlog → generic over the
case-insensitively named lists, and a board lacking all three reserved
list names always falls through to the generic suggestion. -/
theorem boardSummary_nextActionSuggestion :
    (∀ ls : List BS.ListSummary,
      0 < BS.countOf (BS.findListByName ls "testing") →
      BS.suggestionFor ls = "Review cards in Testing that need feedback") ∧
    (∀ ls : List BS.ListSummary,
      BS.countOf (BS.findListByName ls "testing") = 0 →
      0 < BS.countOf (BS.findListByName ls "in progress") →
      BS.suggestionFor ls = "Continue working on cards in In Progress") ∧
    (∀ ls : List BS.ListSummary,
      BS.countOf (BS.findListByName ls "testing") = 0 →
      BS.countOf (BS.findListByName ls "in progress") = 0 →
      0 < BS.countOf (BS.findListByName ls "backlog") →
      BS.suggestionFor ls = "Start working on a card from Backlog") ∧
    (∀ ls : List BS.ListSummary,
      BS.countOf (BS.findListByName ls "testing") = 0 →
      BS.countOf (BS.findListByName ls "in progress") = 0 →
      BS.countOf (BS.findListByName ls "backlog") = 0 →
      BS.suggestionFor ls = "All tasks complete! Create new cards or projects") ∧
    (∀ ls : List BS.ListSummary,
      (∀ l ∈ ls, BS.nameMatches l.list.name "testing" = false ∧
        BS.nameMatches l.list.name "in progress" = false ∧
        BS.nameMatches l.list.name "backlog" = false) →
      BS.suggestionFor ls = "All tasks complete! Create new cards or projects") := by
  refine ⟨?_, ?_, ?_, ?_, ?_⟩
  · intro ls h
    simp only [BS.suggestionFor, BS.getNextActionSuggestion, if_pos h]
  · intro ls h0 h
    simp only [BS.suggestionFor, BS.getNextActionSuggestion]
    rw [if_neg (by omega), if_pos h]
  · intro ls h0 h1 h
    simp only [BS.suggestionFor, BS.getNextActionSuggestion]
    rw [if_neg (by omega), if_neg (by omega), if_pos h]
  · intro ls h0 h1 h2
    simp only [BS.suggestionFor, BS.getNextActionSuggestion]
    rw [if_neg (by omega), if_neg (by omega), if_neg (by omega)]
  · intro ls h
    have hfind : ∀ target : String,
        (∀ l ∈ ls, BS.nameMatches l.list.name target = false) →
        BS.findListByName ls target = none := by
      intro target ht
      apply List.find?_eq_none.mpr
      intro l hl
      simp [ht l hl]
    have hT := hfind "testing" (fun l hl => (h l hl).1)
    have hI := hfind "in progress" (fun l hl => (h l hl).2.1)
    have hB := hfind "backlog" (fun l hl => (h l hl).2.2)
    simp [BS.suggestionFor, BS.getNextActionSuggestion, hT, hI, hB, BS.countOf]

/-- Witness for `boardSummary_nextActionSuggestion` at a concrete
board whose only non-empty reserved list is Backlog. -/
theorem boardSummary_nextActionSuggestion_witness :
    BS.suggestionFor
      [{ list := { id := "l1", name := some "Backlog" }, cards := [], cardCount := 2 }] =
      "Start working on a card from Backlog" :=
  boardSummary_nextActionSuggestion.2.2.1
    [{ list := { id := "l1", name := some "Backlog" }, cards := [], cardCount := 2 }]
    (by decide) (by decide) (by decide)

/-- C8: when the fetched card has no card-label association matching
both the given card id and label id, `removeLabelFromCard` returns a
success result and never issues the DELETE request. -/
theorem removeLabel_absent_is_noop_success (be : RLC.Backend) (cardId labelId : String)
    (cls : List RLC.CardLabel) (hok : be.cardResp = .ok cls)
    (habsent : ∀ cl ∈ cls, ¬(cl.cardId = cardId ∧ cl.labelId = labelId)) :
    (RLC.removeLabelFromCard be cardId labelId).2 =
      .ok { success := true, message := some "Label was not on card" } ∧
    ∀ call ∈ (RLC.removeLabelFromCard be cardId labelId).1,
      call.isDelete = false := by
  have hfind : cls.find? (fun cl => cl.cardId == cardId && cl.labelId == labelId) = none := by
    apply List.find?_eq_none.mpr
    intro cl hcl
    have := habsent cl hcl
    simp only [Bool.and_eq_true, beq_iff_eq]
    tauto
  unfold RLC.removeLabelFromCard
  rw [hok]
  simp [hfind, RLC.Call.isDelete]

/-- Unfolding of the expected task calls over a cons cell. -/
theorem expectedTaskCallsFrom_cons (cardId n : String) (rest : List String) (i0 : Nat) :
    CCWT.expectedTaskCallsFrom cardId (n :: rest) i0 =
      CCWT.ApiCall.createTask cardId n (65535 * ((i0 : Int) + 1)) ::
        CCWT.expectedTaskCallsFrom cardId rest (i0 + 1) := by
  unfold CCWT.expectedTaskCallsFrom
  rw [List.length_cons, List.range_succ_eq_map, List.map_cons, List.map_map]
  refine congrArg₂ List.cons (by simp) ?_
  apply List.map_congr_left
  intro j _
  simp only [Function.comp_apply, List.getD_cons_succ]
  congr 1
  push_cast
  ring

/-- Every expected task call is a createTask call. -/
theorem expectedTaskCallsFrom_isCreateTask (cardId : String) (names : List String) (i0 : Nat) :
    ∀ call ∈ CCWT.expectedTaskCallsFrom cardId names i0, call.isCreateTask = true := by
  intro call hc
  obtain ⟨j, _, rfl⟩ := List.mem_map.mp hc
  rfl

/-- Length of the expected task calls. -/
theorem expectedTaskCallsFrom_length (cardId : String) (names : List String) (i0 : Nat) :
    (CCWT.expectedTaskCallsFrom cardId names i0).length = names.length := by
  simp [CCWT.expectedTaskCallsFrom]

/-- When every task creation from index `i0` on succeeds, the loop
appends exactly the expected createTask calls and returns as many
created tasks as input names. -/
theorem createTasksLoop_ok (be : CCWT.Backend) (cardId : String) :
    ∀ (names : List String) (i0 : Nat) (acc : List CCWT.TaskRec) (trace : List CCWT.ApiCall),
      (∀ j, j < names.length → BS.isOkB (be.taskResult (i0 + j) (names.getD j "")) = true) →
      ∃ created : List CCWT.TaskRec,
        CCWT.createTasksLoop be cardId names i0 acc trace =
          (trace ++ CCWT.expectedTaskCallsFrom cardId names i0, .ok (acc ++ created)) ∧
        created.length = names.length := by
  intro names
  induction names with
  | nil =>
    intro i0 acc trace _
    exact ⟨[], by simp [CCWT.createTasksLoop, CCWT.expectedTaskCallsFrom], rfl⟩
  | cons n rest ih =>
    intro i0 acc trace h
    have h0 := h 0 (by simp)
    obtain ⟨t, ht⟩ : ∃ t, be.taskResult i0 n = .ok t := by
      cases heq : be.taskResult i0 n with
      | ok t => exact ⟨t, rfl⟩
      | error e =>
        rw [Nat.add_zero, List.getD_cons_zero, heq] at h0
        exact absurd h0 (by simp [BS.isOkB])
    obtain ⟨created, hloop, hlen⟩ :=
      ih (i0 + 1) (acc ++ [t])
        (trace ++ [CCWT.ApiCall.createTask cardId n (65535 * ((i0 : Int) + 1))])
        (fun j hj => by
          have := h (j + 1) (by simpa using Nat.succ_lt_succ hj)
          rwa [List.getD_cons_succ, show i0 + (j + 1) = i0 + 1 + j by omega] at this)
    refine ⟨t :: created, ?_, by simp [hlen]⟩
    unfold CCWT.createTasksLoop
    rw [ht]
    simp only [] at hloop ⊢
    rw [hloop, expectedTaskCallsFrom_cons]
    simp [List.append_assoc]

/-- When the task creations up to index `i - 1` succeed and the i-th
fails, the loop issues exactly the first `i + 1` createTask calls and
aborts with the error. -/
theorem createTasksLoop_fail (be : CCWT.Backend) (cardId : String) :
    ∀ (names : List String) (i i0 : Nat) (acc : List CCWT.TaskRec) (trace : List CCWT.ApiCall),
      i < names.length →
      (∀ j, j < i → BS.isOkB (be.taskResult (i0 + j) (names.getD j "")) = true) →
      BS.isOkB (be.taskResult (i0 + i) (names.getD i "")) = false →
      ∃ e, CCWT.createTasksLoop be cardId names i0 acc trace =
        (trace ++ CCWT.expectedTaskCallsFrom cardId (names.take (i + 1)) i0, .error e) := by
  intro names
  induction names with
  | nil => intro i i0 acc trace hi; exact absurd hi (by simp)
  | cons n rest ih =>
    intro i i0 acc trace hi hpre hfail
    cases i with
    | zero =>
      rw [Nat.add_zero, List.getD_cons_zero] at hfail
      obtain ⟨e, he⟩ : ∃ e, be.taskResult i0 n = .error e := by
        cases heq : be.taskResult i0 n with
        | ok t => rw [heq] at hfail; exact absurd hfail (by simp [BS.isOkB])
        | error e => exact ⟨e, rfl⟩
      refine ⟨e, ?_⟩
      unfold CCWT.createTasksLoop
      rw [he]
      rw [List.take_succ_cons, List.take_zero, expectedTaskCallsFrom_cons]
      simp [CCWT.expectedTaskCallsFrom]
    | succ k =>
      have h0 := hpre 0 (by omega)
      obtain ⟨t, ht⟩ : ∃ t, be.taskResult i0 n = .ok t := by
        cases heq : be.taskResult i0 n with
        | ok t => exact ⟨t, rfl⟩
        | error e =>
          rw [Nat.add_zero, List.getD_cons_zero, heq] at h0
          exact absurd h0 (by simp [BS.isOkB])
      obtain ⟨e, he⟩ :=
        ih k (i0 + 1) (acc ++ [t])
          (trace ++ [CCWT.ApiCall.createTask cardId n (65535 * ((i0 : Int) + 1))])
          (by simp only [List.length_cons] at hi; omega)
          (fun j hj => by
            have := hpre (j + 1) (by omega)
            rwa [List.getD_cons_succ, show i0 + (j + 1) = i0 + 1 + j by omega] at this)
          (by
            rw [List.getD_cons_succ] at hfail
            rwa [show i0 + 1 + k = i0 + (k + 1) from by omega])
      refine ⟨e, ?_⟩
      unfold CCWT.createTasksLoop
      rw [ht]
      simp only [] at he ⊢
      rw [he, List.take_succ_cons, expectedTaskCallsFrom_cons]
      simp [List.append_assoc]

/-- C4: when the card creation succeeds but a later step fails (the
i-th task creation, or the comment creation), the issued calls are
exactly the card creation plus the creations attempted so far — no
compensating delete is ever issued — and the call propagates the error. -/
theorem createCardWithTasks_no_rollback :
    (∀ (be : CCWT.Backend) (p : CCWT.Params) (names : List String)
        (card : CCWT.CardRec) (i : Nat),
      be.cardResult = .ok card → p.tasks = some names → i < names.length →
      (∀ j, j < i → BS.isOkB (be.taskResult j (names.getD j "")) = true) →
      BS.isOkB (be.taskResult i (names.getD i "")) = false →
      ∃ e, CCWT.createCardWithTasks be p =
        (CCWT.ApiCall.createCard p.listId p.name (p.description.getD "")
            (p.position.getD 65535) ::
          CCWT.expectedTaskCallsFrom card.id (names.take (i + 1)) 0, Except.error e) ∧
        ∀ call ∈ (CCWT.createCardWithTasks be p).1, call.isDelete = false) ∧
    (∀ (be : CCWT.Backend) (p : CCWT.Params) (names : List String)
        (card : CCWT.CardRec) (ctext : String),
      be.cardResult = .ok card → p.tasks = some names →
      (∀ j, j < names.length → BS.isOkB (be.taskResult j (names.getD j "")) = true) →
      p.comment = some ctext →
      BS.isOkB be.commentResult = false →
      ∃ e, CCWT.createCardWithTasks be p =
        (CCWT.ApiCall.createCard p.listId p.name (p.description.getD "")
            (p.position.getD 65535) ::
          (CCWT.expectedTaskCallsFrom card.id names 0 ++
            [CCWT.ApiCall.createComment card.id ctext]), Except.error e) ∧
        ∀ call ∈ (CCWT.createCardWithTasks be p).1, call.isDelete = false) := by
  constructor
  · intro be p names card i hc ht hi hpre hfail
    obtain ⟨e, hloop⟩ :=
      createTasksLoop_fail be card.id names i 0 []
        [CCWT.ApiCall.createCard p.listId p.name (p.description.getD "")
          (p.position.getD 65535)]
        hi (fun j hj => by simpa using hpre j hj) (by simpa using hfail)
    have hres : CCWT.createCardWithTasks be p =
        (CCWT.ApiCall.createCard p.listId p.name (p.description.getD "")
            (p.position.getD 65535) ::
          CCWT.expectedTaskCallsFrom card.id (names.take (i + 1)) 0, Except.error e) := by
      unfold CCWT.createCardWithTasks
      rw [hc]
      simp only [ht]
      rw [if_pos (show 0 < names.length from by omega)]
      simp only [hloop, List.singleton_append]
    refine ⟨e, hres, ?_⟩
    rw [hres]
    intro call hcall
    rcases List.mem_cons.mp hcall with h | h
    · subst h; rfl
    · have := expectedTaskCallsFrom_isCreateTask card.id (names.take (i + 1)) 0 call h
      cases call <;> simp_all [CCWT.ApiCall.isCreateTask, CCWT.ApiCall.isDelete]
  · intro be p names card ctext hc ht hok hcm hcf
    obtain ⟨e, he⟩ : ∃ e, be.commentResult = .error e := by
      cases heq : be.commentResult with
      | ok c => rw [heq] at hcf; exact absurd hcf (by simp [BS.isOkB])
      | error e => exact ⟨e, rfl⟩
    have hres : CCWT.createCardWithTasks be p =
        (CCWT.ApiCall.createCard p.listId p.name (p.description.getD "")
            (p.position.getD 65535) ::
          (CCWT.expectedTaskCallsFrom card.id names 0 ++
            [CCWT.ApiCall.createComment card.id ctext]), Except.error e) := by
      rcases hnames : names with _ | ⟨n, rest⟩
      · subst hnames
        unfold CCWT.createCardWithTasks
        rw [hc]
        simp only [ht, hcm, he, List.length_nil, lt_irrefl, if_false,
          CCWT.expectedTaskCallsFrom, List.range_zero, List.map_nil, List.nil_append,
          List.singleton_append]
      · subst hnames
        obtain ⟨created, hloop, _⟩ :=
          createTasksLoop_ok be card.id (n :: rest) 0 []
            [CCWT.ApiCall.createCard p.listId p.name (p.description.getD "")
              (p.position.getD 65535)]
            (fun j hj => by simpa using hok j hj)
        unfold CCWT.createCardWithTasks
        rw [hc]
        simp only [ht]
        rw [if_pos (by simp)]
        simp only [hloop, hcm, he, List.singleton_append, List.cons_append,
          List.nil_append]
    refine ⟨e, hres, ?_⟩
    rw [hres]
    intro call hcall
    rcases List.mem_cons.mp hcall with h | h
    · subst h; rfl
    · rcases List.mem_append.mp h with h2 | h2
      · have := expectedTaskCallsFrom_isCreateTask card.id names 0 call h2
        cases call <;> simp_all [CCWT.ApiCall.isCreateTask, CCWT.ApiCall.isDelete]
      · rcases List.mem_singleton.mp h2 with rfl
        rfl

/-- Witness for `createCardWithTasks_no_rollback`: the second task
creation fails, leaving the card-creation and both task-creation calls
issued, no delete, and an error result. -/
theorem createCardWithTasks_no_rollback_witness :
    ∃ e, CCWT.createCardWithTasks
        { cardResult := .ok { id := "card1" }
          taskResult := fun i _ => if i = 0 then .ok { id := "t0" } else .error "boom"
          commentResult := .ok { id := "cm" } }
        { listId := "list1", name := "Card", description := none
          tasks := some ["a", "b"], comment := none, position := none } =
      (CCWT.ApiCall.createCard "list1" "Card" "" 65535 ::
        CCWT.expectedTaskCallsFrom "card1" (["a", "b"].take 2) 0, Except.error e) ∧
      ∀ call ∈ (CCWT.createCardWithTasks
        { cardResult := .ok { id := "card1" }
          taskResult := fun i _ => if i = 0 then .ok { id := "t0" } else .error "boom"
          commentResult := .ok { id := "cm" } }
        { listId := "list1", name := "Card", description := none
          tasks := some ["a", "b"], comment := none, position := none }).1,
        call.isDelete = false :=
  createCardWithTasks_no_rollback.1
    { cardResult := .ok { id := "card1" }
      taskResult := fun i _ => if i = 0 then .ok { id := "t0" } else .error "boom"
      commentResult := .ok { id := "cm" } }
    { listId := "list1", name := "Card", description := none
      tasks := some ["a", "b"], comment := none, position := none }
    ["a", "b"] { id := "card1" } 1 rfl rfl (by decide)
    (by intro j hj; interval_cases j <;> decide) (by decide)

/-- C9: when the task-creation phase completes, exactly one createTask
call per input name is issued, in input order, the i-th at position
`65535 * (i + 1)`, and the returned task list has one entry per name. -/
theorem createCardWithTasks_task_positions
    (be : CCWT.Backend) (p : CCWT.Params) (names : List String) (card : CCWT.CardRec)
    (hc : be.cardResult = .ok card) (ht : p.tasks = some names)
    (hok : ∀ j, j < names.length → BS.isOkB (be.taskResult j (names.getD j "")) = true) :
    ((CCWT.createCardWithTasks be p).1.filter CCWT.ApiCall.isCreateTask) =
      CCWT.expectedTaskCallsFrom card.id names 0 ∧
    ((CCWT.createCardWithTasks be p).1.filter CCWT.ApiCall.isCreateTask).length =
      names.length ∧
    (∀ r, (CCWT.createCardWithTasks be p).2 = .ok r → r.tasks.length = names.length) := by
  obtain ⟨created, hloop, hlen⟩ :=
    createTasksLoop_ok be card.id names 0 []
      [CCWT.ApiCall.createCard p.listId p.name (p.description.getD "")
        (p.position.getD 65535)]
      (fun j hj => by simpa using hok j hj)
  have key : ∃ tail : List CCWT.ApiCall,
      (∀ call ∈ tail, call.isCreateTask = false) ∧
      ((CCWT.createCardWithTasks be p).1 =
        CCWT.ApiCall.createCard p.listId p.name (p.description.getD "")
            (p.position.getD 65535) ::
          (CCWT.expectedTaskCallsFrom card.id names 0 ++ tail)) ∧
      (∀ r, (CCWT.createCardWithTasks be p).2 = .ok r → r.tasks.length = names.length) := by
    have hbody : CCWT.createCardWithTasks be p =
        (match p.comment with
          | some ctext =>
            (match be.commentResult with
              | .error e =>
                (CCWT.ApiCall.createCard p.listId p.name (p.description.getD "")
                    (p.position.getD 65535) ::
                  (CCWT.expectedTaskCallsFrom card.id names 0 ++
                    [CCWT.ApiCall.createComment card.id ctext]), Except.error e)
              | .ok cm =>
                (CCWT.ApiCall.createCard p.listId p.name (p.description.getD "")
                    (p.position.getD 65535) ::
                  (CCWT.expectedTaskCallsFrom card.id names 0 ++
                    [CCWT.ApiCall.createComment card.id ctext]),
                  Except.ok { card := card, tasks := created, comment := some cm }))
          | none =>
            (CCWT.ApiCall.createCard p.listId p.name (p.description.getD "")
                (p.position.getD 65535) ::
              (CCWT.expectedTaskCallsFrom card.id names 0 ++ []),
              Except.ok { card := card, tasks := created, comment := none })) := by
      rcases hnames : names with _ | ⟨n, rest⟩
      · subst hnames
        have : created = [] := by simpa using hlen
        subst this
        unfold CCWT.createCardWithTasks
        rw [hc]
        simp only [ht, List.length_nil, lt_irrefl, if_false,
          CCWT.expectedTaskCallsFrom, List.range_zero, List.map_nil, List.nil_append,
          List.append_nil, List.singleton_append]
      · subst hnames
        unfold CCWT.createCardWithTasks
        rw [hc]
        simp only [ht]
        rw [if_pos (by simp)]
        simp only [hloop, List.singleton_append, List.nil_append, List.append_nil,
          List.cons_append, List.append_assoc]
    rcases hcm : p.comment with _ | ctext
    · rw [hcm] at hbody
      refine ⟨[], by simp, by rw [hbody], ?_⟩
      intro r hr
      rw [hbody] at hr
      simp only [Except.ok.injEq] at hr
      rw [← hr]
      simpa using hlen
    · rw [hcm] at hbody
      cases hcr : be.commentResult with
      | error e =>
        rw [hcr] at hbody
        refine ⟨[CCWT.ApiCall.createComment card.id ctext], ?_, by rw [hbody], ?_⟩
        · intro call hcall
          rcases List.mem_singleton.mp hcall with rfl
          rfl
        · intro r hr
          rw [hbody] at hr
          simp at hr
      | ok cm =>
        rw [hcr] at hbody
        refine ⟨[CCWT.ApiCall.createComment card.id ctext], ?_, by rw [hbody], ?_⟩
        · intro call hcall
          rcases List.mem_singleton.mp hcall with rfl
          rfl
        · intro r hr
          rw [hbody] at hr
          simp only [Except.ok.injEq] at hr
          rw [← hr]
          simpa using hlen
  obtain ⟨tail, htail, htrace, hres⟩ := key
  have hfilter : ((CCWT.createCardWithTasks be p).1.filter CCWT.ApiCall.isCreateTask) =
      CCWT.expectedTaskCallsFrom card.id names 0 := by
    rw [htrace]
    rw [List.filter_cons_of_neg (by simp [CCWT.ApiCall.isCreateTask]), List.filter_append]
    rw [List.filter_eq_self.mpr (expectedTaskCallsFrom_isCreateTask card.id names 0),
      List.filter_eq_nil_iff.mpr (fun a ha => by simp [htail a ha]), List.append_nil]
  exact ⟨hfilter, by rw [hfilter]; exact expectedTaskCallsFrom_length card.id names 0, hres⟩

/-- Witness for `createCardWithTasks_task_positions` with two tasks. -/
theorem createCardWithTasks_task_positions_witness :
    ((CCWT.createCardWithTasks
        { cardResult := .ok { id := "card1" }
          taskResult := fun _ n => .ok { id := n }
          commentResult := .ok { id := "cm" } }
        { listId := "list1", name := "Card", description := none
          tasks := some ["a", "b"], comment := none, position := none }).1.filter
        CCWT.ApiCall.isCreateTask) =
      CCWT.expectedTaskCallsFrom "card1" ["a", "b"] 0 :=
  (createCardWithTasks_task_positions
    { cardResult := .ok { id := "card1" }
      taskResult := fun _ n => .ok { id := n }
      commentResult := .ok { id := "cm" } }
    { listId := "list1", name := "Card", description := none
      tasks := some ["a", "b"], comment := none, position := none }
    ["a", "b"] { id := "card1" } rfl rfl
    (by intro j _; simp [BS.isOkB])).1

/-- Witness for `removeLabel_absent_is_noop_success`: a card whose only
association is with a different label. -/
theorem removeLabel_absent_is_noop_success_witness :
    (RLC.removeLabelFromCard
      { cardResp := .ok [{ id := "cl9", cardId := "card1", labelId := "otherLabel" }]
        deleteResp := fun _ => .ok () }
      "card1" "label1").2 =
      .ok { success := true, message := some "Label was not on card" } ∧
    ∀ call ∈ (RLC.removeLabelFromCard
      { cardResp := .ok [{ id := "cl9", cardId := "card1", labelId := "otherLabel" }]
        deleteResp := fun _ => .ok () }
      "card1" "label1").1, call.isDelete = false :=
  removeLabel_absent_is_noop_success
    { cardResp := .ok [{ id := "cl9", cardId := "card1", labelId := "otherLabel" }]
      deleteResp := fun _ => .ok () }
    "card1" "label1"
    [{ id := "cl9", cardId := "card1", labelId := "otherLabel" }]
    rfl (by decide)

/-- An in-window date is present. -/
theorem isWithinRange_isSome {d : Option Int} {lo hi : Int}
    (h : Feed.isWithinRange d lo hi = true) : d.isSome = true := by
  cases d with
  | none => simp [Feed.isWithinRange] at h
  | some t => rfl

/-- C3: for every card processed by the activity feed, at most one of
card_created / card_updated / card_completed is emitted: an in-window
createdAt yields exactly one card_created entry (even when updatedAt is
also in-window); otherwise an in-window updatedAt yields card_completed
when the card is completed and card_updated when it is not; and at most
one entry is appended by the card phase. -/
theorem activityFeed_card_event_exclusive (lo hi : Int) (boardId listId : String)
    (s : Feed.FeedState) (c : Feed.Card) :
    (Feed.isWithinRange c.createdAt lo hi = true →
      (Feed.cardPhase lo hi boardId listId s c).1.changes =
        s.changes ++
          [{ timestamp := c.createdAt.getD 0, type := .card_created, boardId := boardId
             listId := some listId, cardId := c.id, taskId := none, commentId := none
             userId := none, preview := none }]) ∧
    (Feed.isWithinRange c.createdAt lo hi = false →
      Feed.isWithinRange c.updatedAt lo hi = true →
      (Feed.cardPhase lo hi boardId listId s c).1.changes =
        s.changes ++
          [{ timestamp := c.updatedAt.getD 0
             type := if c.isCompleted then .card_completed else .card_updated
             boardId := boardId, listId := some listId, cardId := c.id, taskId := none
             commentId := none, userId := none, preview := none }]) ∧
    (Feed.isWithinRange c.createdAt lo hi = false →
      Feed.isWithinRange c.updatedAt lo hi = false →
      (Feed.cardPhase lo hi boardId listId s c).1.changes = s.changes) ∧
    (Feed.cardPhase lo hi boardId listId s c).1.changes.length ≤ s.changes.length + 1 := by
  refine ⟨?_, ?_, ?_, ?_⟩
  · intro hcr
    simp [Feed.cardPhase, hcr]
  · intro hcr hup
    have hsome := isWithinRange_isSome hup
    cases hcomp : c.isCompleted <;>
      simp [Feed.cardPhase, hcr, hup, hsome, hcomp]
  · intro hcr hup
    simp [Feed.cardPhase, hcr, hup]
  · unfold Feed.cardPhase
    split_ifs <;> simp

/-- Witness for `activityFeed_card_event_exclusive`: a card whose
createdAt and updatedAt both lie in the window yields only the
card_created entry. -/
theorem activityFeed_card_event_exclusive_witness :
    (Feed.cardPhase 0 10 "b1" "l1" Feed.initState
        { id := "c1", name := "C", createdAt := some 3, updatedAt := some 5
          isCompleted := true, tasksResp := .ok [], commentsResp := .ok [] }).1.changes =
      Feed.initState.changes ++
        [{ timestamp := (some (3 : Int)).getD 0, type := .card_created, boardId := "b1"
           listId := some "l1", cardId := "c1", taskId := none, commentId := none
           userId := none, preview := none }] :=
  (activityFeed_card_event_exclusive 0 10 "b1" "l1" Feed.initState
    { id := "c1", name := "C", createdAt := some 3, updatedAt := some 5
      isCompleted := true, tasksResp := .ok [], commentsResp := .ok [] }).1
    (by decide)

/-- Filtering by an exact timestamp commutes with an ordered insert for
the descending relation: an inserted element lands in front of the
existing elements that carry its timestamp and does not disturb the
others. -/
theorem filter_ts_orderedInsert (t : Int) (a : Feed.ActivityEntry)
    (l : List Feed.ActivityEntry) :
    (List.orderedInsert Feed.tsGE a l).filter (fun e => e.timestamp == t) =
      if a.timestamp == t then a :: l.filter (fun e => e.timestamp == t)
      else l.filter (fun e => e.timestamp == t) := by
  induction l with
  | nil =>
    simp only [List.orderedInsert]
    by_cases ha : a.timestamp == t <;> simp [ha]
  | cons b l ih =>
    by_cases hr : Feed.tsGE a b
    · simp only [List.orderedInsert, if_pos hr]
      by_cases ha : a.timestamp == t <;> simp [ha, List.filter_cons]
    · simp only [List.orderedInsert, if_neg hr]
      have hlt : a.timestamp < b.timestamp := by
        have := not_le.mp hr
        exact this
      by_cases ha : a.timestamp == t
      · have ha' : a.timestamp = t := by simpa using ha
        have hb : (b.timestamp == t) = false := by
          simp only [beq_eq_false_iff_ne, ne_eq]
          omega
        simp [List.filter_cons, hb, ih, ha]
      · simp [List.filter_cons, ih, ha]

/-- Filtering by an exact timestamp sees the stable sort as the
identity: elements with a given timestamp stay in traversal order. -/
theorem filter_ts_insertionSort (t : Int) (l : List Feed.ActivityEntry) :
    (List.insertionSort Feed.tsGE l).filter (fun e => e.timestamp == t) =
      l.filter (fun e => e.timestamp == t) := by
  induction l with
  | nil => rfl
  | cons a l ih =>
    simp only [List.insertionSort]
    rw [filter_ts_orderedInsert]
    by_cases ha : a.timestamp == t <;> simp [ha, ih, List.filter_cons]

/-- C7: the returned changes array is sorted non-increasing by
timestamp (every adjacent pair satisfies `timestamp(e[i]) ≥
timestamp(e[i+1])`), and entries sharing a timestamp keep their
traversal order (the sort is stable). -/
theorem activityFeed_changes_sorted (N lo hi : Int) (boards : List Feed.Board)
    (res : Feed.FeedResult)
    (h : Feed.getActivityFeed N lo hi (Except.ok boards) = Except.ok res) :
    List.Chain' (fun a b => b.timestamp ≤ a.timestamp) res.changes ∧
    ∀ t : Int,
      res.changes.filter (fun e => e.timestamp == t) =
        ((boards.foldl (Feed.processBoard N lo hi) Feed.initState).changes).filter
          (fun e => e.timestamp == t) := by
  have hchanges : res.changes = Feed.sortByTimestampDesc
      (boards.foldl (Feed.processBoard N lo hi) Feed.initState).changes := by
    unfold Feed.getActivityFeed at h
    simp only [Except.ok.injEq] at h
    rw [← h]
  constructor
  · rw [hchanges]
    exact (List.sorted_insertionSort Feed.tsGE _).chain'
  · intro t
    rw [hchanges]
    exact filter_ts_insertionSort t _

/-- typeCount distributes over append. -/
theorem typeCount_append (ty : Feed.EventType) (l1 l2 : List Feed.ActivityEntry) :
    Feed.typeCount ty (l1 ++ l2) = Feed.typeCount ty l1 + Feed.typeCount ty l2 :=
  List.countP_append _ _ _

/-- typeCount of a singleton. -/
theorem typeCount_singleton (ty : Feed.EventType) (e : Feed.ActivityEntry) :
    Feed.typeCount ty [e] = if e.type = ty then 1 else 0 := by
  simp [Feed.typeCount, List.countP_cons]

/-- Every entry has exactly one of the six kinds, so the length of an
entry list is the sum of its six per-kind counts. -/
theorem length_eq_typeCounts (l : List Feed.ActivityEntry) :
    l.length =
      Feed.typeCount .card_created l + Feed.typeCount .card_updated l +
      Feed.typeCount .card_completed l + Feed.typeCount .task_created l +
      Feed.typeCount .task_completed l + Feed.typeCount .comment_added l := by
  induction l with
  | nil => simp [Feed.typeCount]
  | cons e l ih =>
    simp only [List.length_cons, Feed.typeCount, List.countP_cons] at ih ⊢
    cases he : e.type <;> simp [he] <;> omega

/-- The counters invariant holds initially. -/
theorem countsInv_init (N : Int) : Feed.countsInv N Feed.initState := by
  simp [Feed.countsInv, Feed.initState, Feed.typeCount]

/-- The card phase preserves the counters invariant. -/
theorem countsInv_cardPhase (N lo hi : Int) (b l : String) (s : Feed.FeedState)
    (c : Feed.Card) (h : Feed.countsInv N s) :
    Feed.countsInv N (Feed.cardPhase lo hi b l s c).1 := by
  obtain ⟨h1, h2, h3, h4, h5, h6⟩ := h
  unfold Feed.cardPhase
  split_ifs <;>
    simp_all [Feed.countsInv, typeCount_append, typeCount_singleton]

/-- A task step preserves the counters invariant. -/
theorem countsInv_taskStep (N lo hi : Int) (b l cid : String)
    (sb : Feed.FeedState × Bool) (t : Feed.Task)
    (h : Feed.countsInv N sb.1) :
    Feed.countsInv N (Feed.taskStep lo hi b l cid sb t).1 := by
  obtain ⟨h1, h2, h3, h4, h5, h6⟩ := h
  unfold Feed.taskStep
  split_ifs <;>
    simp_all [Feed.countsInv, typeCount_append, typeCount_singleton]

/-- A comment step preserves the counters invariant: when the counter is
below the cap an entry is pushed alongside the increment, otherwise the
count of materialized entries stays pinned at the cap. -/
theorem countsInv_commentStep (N lo hi : Int) (b l cid : String)
    (sb : Feed.FeedState × Bool) (m : Feed.Comment)
    (h : Feed.countsInv N sb.1) :
    Feed.countsInv N (Feed.commentStep N lo hi b l cid sb m).1 := by
  obtain ⟨h1, h2, h3, h4, h5, h6⟩ := h
  unfold Feed.commentStep
  by_cases hw : Feed.isWithinRange m.createdAt lo hi
  · rcases hu : m.userId with _ | u <;>
      by_cases hcap : (sb.1.newComments : Int) < N <;>
        · simp only [hw, hu, hcap, if_true, if_false, ite_true, ite_false]
          simp_all [Feed.countsInv, typeCount_append, typeCount_singleton]
          try omega
  · simp_all [Feed.countsInv]

/-- The affected-cards wrap-up of a card leaves changes and counters
untouched, so it preserves the counters invariant. -/
theorem countsInv_processCard (N lo hi : Int) (b l : String) (s : Feed.FeedState)
    (c : Feed.Card) (h : Feed.countsInv N s) :
    Feed.countsInv N (Feed.processCard N lo hi b l s c) := by
  unfold Feed.processCard
  have h2 :=
    foldl_preserve (Feed.commentStep N lo hi b l c.id)
      (fun sb => Feed.countsInv N sb.1)
      (fun sb m hh => countsInv_commentStep N lo hi b l c.id sb m hh)
      (Feed.commentsOf c) _
      (foldl_preserve (Feed.taskStep lo hi b l c.id)
        (fun sb => Feed.countsInv N sb.1)
        (fun sb t hh => countsInv_taskStep N lo hi b l c.id sb t hh)
        (Feed.tasksOf c) _
        (countsInv_cardPhase N lo hi b l s c h))
  have hwrap : ∀ (x : Feed.FeedState × Bool) (a : Feed.AffectedCard),
      Feed.countsInv N x.1 →
      Feed.countsInv N
        (if x.2 then { x.1 with affected := Feed.setAffected x.1.affected a }
          else x.1) := by
    intro x a hx
    split_ifs <;> exact hx
  exact hwrap _ _ h2

/-- Processing a list preserves the counters invariant. -/
theorem countsInv_processList (N lo hi : Int) (b : String) (s : Feed.FeedState)
    (l : Feed.BList) (h : Feed.countsInv N s) :
    Feed.countsInv N (Feed.processList N lo hi b s l) :=
  foldl_preserve (Feed.processCard N lo hi b l.id) (Feed.countsInv N)
    (fun s c hh => countsInv_processCard N lo hi b l.id s c hh) l.cards s h

/-- Processing a board preserves the counters invariant. -/
theorem countsInv_processBoard (N lo hi : Int) (s : Feed.FeedState)
    (b : Feed.Board) (h : Feed.countsInv N s) :
    Feed.countsInv N (Feed.processBoard N lo hi s b) :=
  foldl_preserve (Feed.processList N lo hi b.id) (Feed.countsInv N)
    (fun s l hh => countsInv_processList N lo hi b.id s l hh) b.lists s h

/-- The full traversal satisfies the counters invariant. -/
theorem countsInv_traversal (N lo hi : Int) (boards : List Feed.Board) :
    Feed.countsInv N (boards.foldl (Feed.processBoard N lo hi) Feed.initState) :=
  foldl_preserve (Feed.processBoard N lo hi) (Feed.countsInv N)
    (fun s b hh => countsInv_processBoard N lo hi s b hh) boards
    Feed.initState (countsInv_init N)

/-- Generic counting lemma: if each fold step adds `g x` to a projected
counter, the fold adds the sum. -/
theorem foldl_proj_add {σ α : Type _} (f : σ → α → σ) (proj : σ → Nat) (g : α → Nat)
    (hstep : ∀ s x, proj (f s x) = proj s + g x) :
    ∀ (xs : List α) (s : σ), proj (xs.foldl f s) = proj s + (xs.map g).sum := by
  intro xs
  induction xs with
  | nil => intro s; simp
  | cons x xs ih =>
    intro s
    rw [List.foldl_cons, ih, hstep, List.map_cons, List.sum_cons]
    omega

/-- A comment step increments the comment counter exactly on in-window
comments. -/
theorem commentStep_newComments (N lo hi : Int) (b l cid : String)
    (sb : Feed.FeedState × Bool) (m : Feed.Comment) :
    (Feed.commentStep N lo hi b l cid sb m).1.newComments =
      sb.1.newComments +
        (if Feed.isWithinRange m.createdAt lo hi then 1 else 0) := by
  unfold Feed.commentStep
  by_cases hw : Feed.isWithinRange m.createdAt lo hi
  · rcases hu : m.userId with _ | u <;>
      by_cases hcap : (sb.1.newComments : Int) < N <;>
        simp [hw, hu, hcap]
  · simp [hw]

/-- A task step never touches the comment counter. -/
theorem taskStep_newComments (lo hi : Int) (b l cid : String)
    (sb : Feed.FeedState × Bool) (t : Feed.Task) :
    (Feed.taskStep lo hi b l cid sb t).1.newComments = sb.1.newComments := by
  unfold Feed.taskStep
  split_ifs <;> rfl

/-- The card phase never touches the comment counter. -/
theorem cardPhase_newComments (lo hi : Int) (b l : String)
    (s : Feed.FeedState) (c : Feed.Card) :
    (Feed.cardPhase lo hi b l s c).1.newComments = s.newComments := by
  unfold Feed.cardPhase
  split_ifs <;> rfl

/-- Summing an indicator over a list counts the satisfying elements. -/
theorem sum_ite_eq_countP {α : Type _} (p : α → Bool) (l : List α) :
    (l.map (fun x => if p x then 1 else 0)).sum = l.countP p := by
  induction l with
  | nil => rfl
  | cons x l ih =>
    simp only [List.map_cons, List.sum_cons, List.countP_cons, ih]
    by_cases h : p x <;> simp [h] <;> omega

/-- Processing one card adds exactly its in-window comment count to the
comment counter. -/
theorem processCard_newComments (N lo hi : Int) (b l : String)
    (s : Feed.FeedState) (c : Feed.Card) :
    (Feed.processCard N lo hi b l s c).newComments =
      s.newComments + Feed.specCardCommentCount lo hi c := by
  unfold Feed.processCard
  have hwrap : ∀ (x : Feed.FeedState × Bool) (a : Feed.AffectedCard),
      (if x.2 then { x.1 with affected := Feed.setAffected x.1.affected a }
        else x.1).newComments = x.1.newComments := by
    intro x a
    split_ifs <;> rfl
  simp only [hwrap]
  have hcf :=
    foldl_proj_add (Feed.commentStep N lo hi b l c.id)
      (fun sb => sb.1.newComments)
      (fun m => if Feed.isWithinRange m.createdAt lo hi then 1 else 0)
      (fun sb m => commentStep_newComments N lo hi b l c.id sb m)
      (Feed.commentsOf c)
      ((Feed.tasksOf c).foldl (Feed.taskStep lo hi b l c.id)
        (Feed.cardPhase lo hi b l s c))
  have htf :=
    foldl_proj_add (Feed.taskStep lo hi b l c.id)
      (fun sb => sb.1.newComments) (fun _ => 0)
      (fun sb t => by simp [taskStep_newComments])
      (Feed.tasksOf c) (Feed.cardPhase lo hi b l s c)
  rw [hcf, htf, cardPhase_newComments]
  simp [Feed.specCardCommentCount, sum_ite_eq_countP]

/-- Processing a list adds its in-window comment count. -/
theorem processList_newComments (N lo hi : Int) (b : String)
    (s : Feed.FeedState) (l : Feed.BList) :
    (Feed.processList N lo hi b s l).newComments =
      s.newComments + Feed.specListCommentCount lo hi l := by
  unfold Feed.processList Feed.specListCommentCount
  exact
    foldl_proj_add (Feed.processCard N lo hi b l.id)
      (fun s => s.newComments) (Feed.specCardCommentCount lo hi)
      (fun s c => processCard_newComments N lo hi b l.id s c) l.cards s

/-- Processing a board adds its in-window comment count. -/
theorem processBoard_newComments (N lo hi : Int)
    (s : Feed.FeedState) (b : Feed.Board) :
    (Feed.processBoard N lo hi s b).newComments =
      s.newComments + Feed.specBoardCommentCount lo hi b := by
  unfold Feed.processBoard Feed.specBoardCommentCount
  exact
    foldl_proj_add (Feed.processList N lo hi b.id)
      (fun s => s.newComments) (Feed.specListCommentCount lo hi)
      (fun s l => processList_newComments N lo hi b.id s l) b.lists s

/-- After the full traversal the comment counter equals the total
in-window comment count of the project. -/
theorem traversal_newComments (N lo hi : Int) (boards : List Feed.Board) :
    (boards.foldl (Feed.processBoard N lo hi) Feed.initState).newComments =
      Feed.specInWindowCommentCount lo hi boards := by
  unfold Feed.specInWindowCommentCount
  have :=
    foldl_proj_add (Feed.processBoard N lo hi)
      (fun s => s.newComments) (Feed.specBoardCommentCount lo hi)
      (fun s b => processBoard_newComments N lo hi s b) boards Feed.initState
  simpa [Feed.initState] using this

/-- Adding a user id puts it in the set. -/
theorem mem_addUserId_self (ids : List String) (u : String) :
    u ∈ Feed.addUserId ids u := by
  unfold Feed.addUserId
  split_ifs with h
  · exact h
  · simp

/-- Adding a user id keeps existing members. -/
theorem mem_addUserId_mono (ids : List String) (u v : String) (h : u ∈ ids) :
    u ∈ Feed.addUserId ids v := by
  unfold Feed.addUserId
  split_ifs
  · exact h
  · exact List.mem_append_left _ h

/-- A comment step keeps existing user ids. -/
theorem commentStep_userIds_mono (N lo hi : Int) (b l cid : String)
    (sb : Feed.FeedState × Bool) (m : Feed.Comment) (u : String)
    (h : u ∈ sb.1.userIds) :
    u ∈ (Feed.commentStep N lo hi b l cid sb m).1.userIds := by
  unfold Feed.commentStep
  by_cases hw : Feed.isWithinRange m.createdAt lo hi
  · rcases hu : m.userId with _ | v <;>
      by_cases hcap : (sb.1.newComments : Int) < N <;>
        simp only [hw, hu, hcap, if_true, if_false, ite_true, ite_false] <;>
          first
            | exact h
            | exact mem_addUserId_mono _ u v h
  · simpa [hw] using h

/-- A task step never touches the user-id set. -/
theorem taskStep_userIds (lo hi : Int) (b l cid : String)
    (sb : Feed.FeedState × Bool) (t : Feed.Task) :
    (Feed.taskStep lo hi b l cid sb t).1.userIds = sb.1.userIds := by
  unfold Feed.taskStep
  split_ifs <;> rfl

/-- The card phase never touches the user-id set. -/
theorem cardPhase_userIds (lo hi : Int) (b l : String)
    (s : Feed.FeedState) (c : Feed.Card) :
    (Feed.cardPhase lo hi b l s c).1.userIds = s.userIds := by
  unfold Feed.cardPhase
  split_ifs <;> rfl

/-- A comment step on an in-window comment with a user id puts that id
in the set, whatever the incoming state. -/
theorem commentStep_userId_mem (N lo hi : Int) (b l cid : String)
    (sb : Feed.FeedState × Bool) (m : Feed.Comment) (u : String)
    (hw : Feed.isWithinRange m.createdAt lo hi = true)
    (hu : m.userId = some u) :
    u ∈ (Feed.commentStep N lo hi b l cid sb m).1.userIds := by
  unfold Feed.commentStep
  by_cases hcap : (sb.1.newComments : Int) < N <;>
    simp only [hw, hu, hcap, if_true, if_false, ite_true, ite_false] <;>
      exact mem_addUserId_self _ u

/-- Processing a card keeps existing user ids. -/
theorem processCard_userIds_mono (N lo hi : Int) (b l : String)
    (s : Feed.FeedState) (c : Feed.Card) (u : String) (h : u ∈ s.userIds) :
    u ∈ (Feed.processCard N lo hi b l s c).userIds := by
  unfold Feed.processCard
  have hwrap : ∀ (x : Feed.FeedState × Bool) (a : Feed.AffectedCard),
      u ∈ x.1.userIds →
      u ∈ (if x.2 then { x.1 with affected := Feed.setAffected x.1.affected a }
        else x.1).userIds := by
    intro x a hx
    split_ifs <;> exact hx
  apply hwrap
  apply foldl_preserve (Feed.commentStep N lo hi b l c.id)
    (fun sb => u ∈ sb.1.userIds)
    (fun sb m hh => commentStep_userIds_mono N lo hi b l c.id sb m u hh)
  apply foldl_preserve (Feed.taskStep lo hi b l c.id)
    (fun sb => u ∈ sb.1.userIds)
    (fun sb t hh => by rw [taskStep_userIds]; exact hh)
  rw [cardPhase_userIds]
  exact h

/-- Processing a card whose comments contain an in-window comment by
user `u` puts `u` in the set, whatever the incoming state. -/
theorem processCard_userId_mem (N lo hi : Int) (b l : String)
    (s : Feed.FeedState) (c : Feed.Card) (m : Feed.Comment) (u : String)
    (hm : m ∈ Feed.commentsOf c)
    (hw : Feed.isWithinRange m.createdAt lo hi = true)
    (hu : m.userId = some u) :
    u ∈ (Feed.processCard N lo hi b l s c).userIds := by
  unfold Feed.processCard
  have hwrap : ∀ (x : Feed.FeedState × Bool) (a : Feed.AffectedCard),
      u ∈ x.1.userIds →
      u ∈ (if x.2 then { x.1 with affected := Feed.setAffected x.1.affected a }
        else x.1).userIds := by
    intro x a hx
    split_ifs <;> exact hx
  apply hwrap
  exact
    foldl_establish (Feed.commentStep N lo hi b l c.id)
      (fun sb => u ∈ sb.1.userIds)
      (fun sb m2 hh => commentStep_userIds_mono N lo hi b l c.id sb m2 u hh)
      m (fun sb => commentStep_userId_mem N lo hi b l c.id sb m u hw hu)
      (Feed.commentsOf c) _ hm

/-- Processing a list keeps existing user ids. -/
theorem processList_userIds_mono (N lo hi : Int) (b : String)
    (s : Feed.FeedState) (l : Feed.BList) (u : String) (h : u ∈ s.userIds) :
    u ∈ (Feed.processList N lo hi b s l).userIds :=
  foldl_preserve (Feed.processCard N lo hi b l.id) (fun s => u ∈ s.userIds)
    (fun s c hh => processCard_userIds_mono N lo hi b l.id s c u hh) l.cards s h

/-- Processing a list containing the commented card records the user. -/
theorem processList_userId_mem (N lo hi : Int) (b : String)
    (s : Feed.FeedState) (l : Feed.BList) (c : Feed.Card) (m : Feed.Comment)
    (u : String) (hc : c ∈ l.cards) (hm : m ∈ Feed.commentsOf c)
    (hw : Feed.isWithinRange m.createdAt lo hi = true)
    (hu : m.userId = some u) :
    u ∈ (Feed.processList N lo hi b s l).userIds :=
  foldl_establish (Feed.processCard N lo hi b l.id) (fun s => u ∈ s.userIds)
    (fun s c2 hh => processCard_userIds_mono N lo hi b l.id s c2 u hh)
    c (fun s => processCard_userId_mem N lo hi b l.id s c m u hm hw hu)
    l.cards s hc

/-- Processing a board keeps existing user ids. -/
theorem processBoard_userIds_mono (N lo hi : Int)
    (s : Feed.FeedState) (b : Feed.Board) (u : String) (h : u ∈ s.userIds) :
    u ∈ (Feed.processBoard N lo hi s b).userIds :=
  foldl_preserve (Feed.processList N lo hi b.id) (fun s => u ∈ s.userIds)
    (fun s l hh => processList_userIds_mono N lo hi b.id s l u hh) b.lists s h

/-- Processing a board containing the commented card records the user. -/
theorem processBoard_userId_mem (N lo hi : Int)
    (s : Feed.FeedState) (b : Feed.Board) (l : Feed.BList) (c : Feed.Card)
    (m : Feed.Comment) (u : String) (hl : l ∈ b.lists) (hc : c ∈ l.cards)
    (hm : m ∈ Feed.commentsOf c)
    (hw : Feed.isWithinRange m.createdAt lo hi = true)
    (hu : m.userId = some u) :
    u ∈ (Feed.processBoard N lo hi s b).userIds :=
  foldl_establish (Feed.processList N lo hi b.id) (fun s => u ∈ s.userIds)
    (fun s l2 hh => processList_userIds_mono N lo hi b.id s l2 u hh)
    l (fun s => processList_userId_mem N lo hi b.id s l c m u hc hm hw hu)
    b.lists s hl

/-- The full traversal records the user of every in-window comment. -/
theorem traversal_userId_mem (N lo hi : Int) (boards : List Feed.Board)
    (b : Feed.Board) (l : Feed.BList) (c : Feed.Card) (m : Feed.Comment)
    (u : String) (hb : b ∈ boards) (hl : l ∈ b.lists) (hc : c ∈ l.cards)
    (hm : m ∈ Feed.commentsOf c)
    (hw : Feed.isWithinRange m.createdAt lo hi = true)
    (hu : m.userId = some u) :
    u ∈ (boards.foldl (Feed.processBoard N lo hi) Feed.initState).userIds :=
  foldl_establish (Feed.processBoard N lo hi) (fun s => u ∈ s.userIds)
    (fun s b2 hh => processBoard_userIds_mono N lo hi s b2 u hh)
    b (fun s => processBoard_userId_mem N lo hi s b l c m u hl hc hm hw hu)
    boards Feed.initState hb

/-- Setting an affected-card entry puts its card id in the map. -/
theorem mem_setAffected_self (m : List Feed.AffectedCard) (a : Feed.AffectedCard) :
    a.cardId ∈ (Feed.setAffected m a).map (fun x => x.cardId) := by
  unfold Feed.setAffected
  split_ifs with h
  · obtain ⟨x, hx, hbeq⟩ := List.any_eq_true.mp h
    refine List.mem_map.mpr ⟨a, ?_, rfl⟩
    refine List.mem_map.mpr ⟨x, hx, ?_⟩
    simp [hbeq]
  · simp

/-- Setting an affected-card entry keeps every card id already there. -/
theorem mem_setAffected_mono (m : List Feed.AffectedCard) (a : Feed.AffectedCard)
    (cid : String) (h : cid ∈ m.map (fun x => x.cardId)) :
    cid ∈ (Feed.setAffected m a).map (fun x => x.cardId) := by
  unfold Feed.setAffected
  obtain ⟨x, hx, rfl⟩ := List.mem_map.mp h
  split_ifs with hany
  · refine List.mem_map.mpr ?_
    by_cases hxa : x.cardId == a.cardId
    · refine ⟨a, List.mem_map.mpr ⟨x, hx, by simp [hxa]⟩, ?_⟩
      have h2 : x.cardId = a.cardId := by simpa using hxa
      exact h2.symm
    · exact ⟨x, List.mem_map.mpr ⟨x, hx, by simp [hxa]⟩, rfl⟩
  · exact List.mem_map.mpr ⟨x, List.mem_append_left _ hx, rfl⟩

/-- A comment step never touches the affected map. -/
theorem commentStep_affected (N lo hi : Int) (b l cid : String)
    (sb : Feed.FeedState × Bool) (m : Feed.Comment) :
    (Feed.commentStep N lo hi b l cid sb m).1.affected = sb.1.affected := by
  unfold Feed.commentStep
  by_cases hw : Feed.isWithinRange m.createdAt lo hi
  · rcases hu : m.userId with _ | u <;>
      by_cases hcap : (sb.1.newComments : Int) < N <;>
        simp [hw, hu, hcap]
  · simp [hw]

/-- A task step never touches the affected map. -/
theorem taskStep_affected (lo hi : Int) (b l cid : String)
    (sb : Feed.FeedState × Bool) (t : Feed.Task) :
    (Feed.taskStep lo hi b l cid sb t).1.affected = sb.1.affected := by
  unfold Feed.taskStep
  split_ifs <;> rfl

/-- The card phase never touches the affected map. -/
theorem cardPhase_affected (lo hi : Int) (b l : String)
    (s : Feed.FeedState) (c : Feed.Card) :
    (Feed.cardPhase lo hi b l s c).1.affected = s.affected := by
  unfold Feed.cardPhase
  split_ifs <;> rfl

/-- A comment step on an in-window comment raises the change flag,
whatever the incoming state. -/
theorem commentStep_flag_on (N lo hi : Int) (b l cid : String)
    (sb : Feed.FeedState × Bool) (m : Feed.Comment)
    (hw : Feed.isWithinRange m.createdAt lo hi = true) :
    (Feed.commentStep N lo hi b l cid sb m).2 = true := by
  unfold Feed.commentStep
  simp [hw]

/-- A comment step never lowers the change flag. -/
theorem commentStep_flag_mono (N lo hi : Int) (b l cid : String)
    (sb : Feed.FeedState × Bool) (m : Feed.Comment) (h : sb.2 = true) :
    (Feed.commentStep N lo hi b l cid sb m).2 = true := by
  unfold Feed.commentStep
  by_cases hw : Feed.isWithinRange m.createdAt lo hi <;> simp [hw, h]

/-- After folding the comments of a card containing an in-window
comment, the change flag is raised. -/
theorem commentFold_flag_on (N lo hi : Int) (b l cid : String)
    (ms : List Feed.Comment) (sb : Feed.FeedState × Bool) (m : Feed.Comment)
    (hm : m ∈ ms) (hw : Feed.isWithinRange m.createdAt lo hi = true) :
    (ms.foldl (Feed.commentStep N lo hi b l cid) sb).2 = true :=
  foldl_establish (Feed.commentStep N lo hi b l cid) (fun sb => sb.2 = true)
    (fun sb m2 hh => commentStep_flag_mono N lo hi b l cid sb m2 hh)
    m (fun sb => commentStep_flag_on N lo hi b l cid sb m hw)
    ms sb hm

/-- Folding the comment loop never touches the affected map. -/
theorem commentFold_affected (N lo hi : Int) (b l cid : String)
    (ms : List Feed.Comment) (sb : Feed.FeedState × Bool) :
    (ms.foldl (Feed.commentStep N lo hi b l cid) sb).1.affected =
      sb.1.affected :=
  foldl_preserve (Feed.commentStep N lo hi b l cid)
    (fun x => x.1.affected = sb.1.affected)
    (fun x m hh => by simp only [commentStep_affected]; exact hh) ms sb rfl

/-- Folding the task loop never touches the affected map. -/
theorem taskFold_affected (lo hi : Int) (b l cid : String)
    (ts : List Feed.Task) (sb : Feed.FeedState × Bool) :
    (ts.foldl (Feed.taskStep lo hi b l cid) sb).1.affected = sb.1.affected :=
  foldl_preserve (Feed.taskStep lo hi b l cid)
    (fun x => x.1.affected = sb.1.affected)
    (fun x t hh => by simp only [taskStep_affected]; exact hh) ts sb rfl

/-- Processing a card keeps every affected card id already recorded. -/
theorem processCard_affected_mono (N lo hi : Int) (b l : String)
    (s : Feed.FeedState) (c : Feed.Card) (cid : String)
    (h : cid ∈ Feed.affectedIds s) :
    cid ∈ Feed.affectedIds (Feed.processCard N lo hi b l s c) := by
  unfold Feed.processCard Feed.affectedIds
  have hwrap : ∀ (x : Feed.FeedState × Bool) (a : Feed.AffectedCard),
      cid ∈ x.1.affected.map (fun y => y.cardId) →
      cid ∈ (if x.2 then { x.1 with affected := Feed.setAffected x.1.affected a }
        else x.1).affected.map (fun y => y.cardId) := by
    intro x a hx
    split_ifs
    · exact mem_setAffected_mono _ _ _ hx
    · exact hx
  apply hwrap
  rw [commentFold_affected, taskFold_affected, cardPhase_affected]
  exact h

/-- Processing a card that has an in-window comment records the card in
the affected map, whatever the incoming state. -/
theorem processCard_affected_mem (N lo hi : Int) (b l : String)
    (s : Feed.FeedState) (c : Feed.Card) (m : Feed.Comment)
    (hm : m ∈ Feed.commentsOf c)
    (hw : Feed.isWithinRange m.createdAt lo hi = true) :
    c.id ∈ Feed.affectedIds (Feed.processCard N lo hi b l s c) := by
  unfold Feed.processCard Feed.affectedIds
  have hflag :=
    commentFold_flag_on N lo hi b l c.id (Feed.commentsOf c)
      ((Feed.tasksOf c).foldl (Feed.taskStep lo hi b l c.id)
        (Feed.cardPhase lo hi b l s c)) m hm hw
  simp only [hflag, if_true, ite_true]
  exact mem_setAffected_self _ { cardId := c.id, cardName := c.name, boardId := b, listId := l }

/-- Processing a list keeps recorded affected ids. -/
theorem processList_affected_mono (N lo hi : Int) (b : String)
    (s : Feed.FeedState) (l : Feed.BList) (cid : String)
    (h : cid ∈ Feed.affectedIds s) :
    cid ∈ Feed.affectedIds (Feed.processList N lo hi b s l) :=
  foldl_preserve (Feed.processCard N lo hi b l.id) (fun s => cid ∈ Feed.affectedIds s)
    (fun s c hh => processCard_affected_mono N lo hi b l.id s c cid hh) l.cards s h

/-- Processing a list containing a card with an in-window comment
records that card. -/
theorem processList_affected_mem (N lo hi : Int) (b : String)
    (s : Feed.FeedState) (l : Feed.BList) (c : Feed.Card) (m : Feed.Comment)
    (hc : c ∈ l.cards) (hm : m ∈ Feed.commentsOf c)
    (hw : Feed.isWithinRange m.createdAt lo hi = true) :
    c.id ∈ Feed.affectedIds (Feed.processList N lo hi b s l) :=
  foldl_establish (Feed.processCard N lo hi b l.id)
    (fun s => c.id ∈ Feed.affectedIds s)
    (fun s c2 hh => processCard_affected_mono N lo hi b l.id s c2 c.id hh)
    c (fun s => processCard_affected_mem N lo hi b l.id s c m hm hw)
    l.cards s hc

/-- Processing a board keeps recorded affected ids. -/
theorem processBoard_affected_mono (N lo hi : Int)
    (s : Feed.FeedState) (b : Feed.Board) (cid : String)
    (h : cid ∈ Feed.affectedIds s) :
    cid ∈ Feed.affectedIds (Feed.processBoard N lo hi s b) :=
  foldl_preserve (Feed.processList N lo hi b.id) (fun s => cid ∈ Feed.affectedIds s)
    (fun s l hh => processList_affected_mono N lo hi b.id s l cid hh) b.lists s h

/-- Processing a board containing a card with an in-window comment
records that card. -/
theorem processBoard_affected_mem (N lo hi : Int)
    (s : Feed.FeedState) (b : Feed.Board) (l : Feed.BList) (c : Feed.Card)
    (m : Feed.Comment) (hl : l ∈ b.lists) (hc : c ∈ l.cards)
    (hm : m ∈ Feed.commentsOf c)
    (hw : Feed.isWithinRange m.createdAt lo hi = true) :
    c.id ∈ Feed.affectedIds (Feed.processBoard N lo hi s b) :=
  foldl_establish (Feed.processList N lo hi b.id)
    (fun s => c.id ∈ Feed.affectedIds s)
    (fun s l2 hh => processList_affected_mono N lo hi b.id s l2 c.id hh)
    l (fun s => processList_affected_mem N lo hi b.id s l c m hc hm hw)
    b.lists s hl

/-- The full traversal records every card with an in-window comment. -/
theorem traversal_affected_mem (N lo hi : Int) (boards : List Feed.Board)
    (b : Feed.Board) (l : Feed.BList) (c : Feed.Card) (m : Feed.Comment)
    (hb : b ∈ boards) (hl : l ∈ b.lists) (hc : c ∈ l.cards)
    (hm : m ∈ Feed.commentsOf c)
    (hw : Feed.isWithinRange m.createdAt lo hi = true) :
    c.id ∈ Feed.affectedIds
      (boards.foldl (Feed.processBoard N lo hi) Feed.initState) :=
  foldl_establish (Feed.processBoard N lo hi)
    (fun s => c.id ∈ Feed.affectedIds s)
    (fun s b2 hh => processBoard_affected_mono N lo hi s b2 c.id hh)
    b (fun s => processBoard_affected_mem N lo hi s b l c m hl hc hm hw)
    boards Feed.initState hb

/-- Shape of a successful feed result in terms of the traversal state. -/
theorem getActivityFeed_ok (N lo hi : Int) (boards : List Feed.Board)
    (res : Feed.FeedResult)
    (h : Feed.getActivityFeed N lo hi (Except.ok boards) = Except.ok res) :
    res =
      { totalChanges :=
          (Feed.sortByTimestampDesc
            (boards.foldl (Feed.processBoard N lo hi) Feed.initState).changes).length
        newCards := (boards.foldl (Feed.processBoard N lo hi) Feed.initState).newCards
        updatedCards := (boards.foldl (Feed.processBoard N lo hi) Feed.initState).updatedCards
        completedCards := (boards.foldl (Feed.processBoard N lo hi) Feed.initState).completedCards
        newComments := (boards.foldl (Feed.processBoard N lo hi) Feed.initState).newComments
        newTasks := (boards.foldl (Feed.processBoard N lo hi) Feed.initState).newTasks
        completedTasks := (boards.foldl (Feed.processBoard N lo hi) Feed.initState).completedTasks
        changes := Feed.sortByTimestampDesc
          (boards.foldl (Feed.processBoard N lo hi) Feed.initState).changes
        affectedCards := (boards.foldl (Feed.processBoard N lo hi) Feed.initState).affected
        userIds := (boards.foldl (Feed.processBoard N lo hi) Feed.initState).userIds } := by
  unfold Feed.getActivityFeed at h
  simp only [Except.ok.injEq] at h
  exact h.symm

/-- C2: with cap `maxComments = N ≥ 0`, the changes array holds at most
`N` comment_added entries, `summary.newComments` equals the total
in-window comment count across all traversed cards (even beyond the
cap), and every in-window comment still contributes its user id to
`userIds` and its card id to `affectedCards`. -/
theorem activityFeed_maxComments_cap (N lo hi : Int) (hN : 0 ≤ N)
    (boards : List Feed.Board) (res : Feed.FeedResult)
    (h : Feed.getActivityFeed N lo hi (Except.ok boards) = Except.ok res) :
    ((Feed.typeCount .comment_added res.changes : Int) ≤ N) ∧
    res.newComments = Feed.specInWindowCommentCount lo hi boards ∧
    (∀ b ∈ boards, ∀ l ∈ b.lists, ∀ c ∈ l.cards, ∀ m ∈ Feed.commentsOf c,
      Feed.isWithinRange m.createdAt lo hi = true →
      (∀ u, m.userId = some u → u ∈ res.userIds) ∧
      c.id ∈ res.affectedCards.map (fun a => a.cardId)) := by
  have hres := getActivityFeed_ok N lo hi boards res h
  have hch : res.changes = Feed.sortByTimestampDesc
      (boards.foldl (Feed.processBoard N lo hi) Feed.initState).changes := by
    rw [hres]
  have hnc : res.newComments =
      (boards.foldl (Feed.processBoard N lo hi) Feed.initState).newComments := by
    rw [hres]
  have huid : res.userIds =
      (boards.foldl (Feed.processBoard N lo hi) Feed.initState).userIds := by
    rw [hres]
  have haff : res.affectedCards =
      (boards.foldl (Feed.processBoard N lo hi) Feed.initState).affected := by
    rw [hres]
  refine ⟨?_, ?_, ?_⟩
  · rw [hch]
    have hperm :
        Feed.typeCount .comment_added
          (Feed.sortByTimestampDesc
            (boards.foldl (Feed.processBoard N lo hi) Feed.initState).changes) =
        Feed.typeCount .comment_added
          (boards.foldl (Feed.processBoard N lo hi) Feed.initState).changes :=
      (List.perm_insertionSort Feed.tsGE _).countP_eq _
    have hinv := (countsInv_traversal N lo hi boards).2.2.2.2.2
    rw [hperm, hinv]
    omega
  · rw [hnc]
    exact traversal_newComments N lo hi boards
  · intro b hb l hl c hc m hm hw
    constructor
    · intro u hu
      rw [huid]
      exact traversal_userId_mem N lo hi boards b l c m u hb hl hc hm hw hu
    · rw [haff]
      exact traversal_affected_mem N lo hi boards b l c m hb hl hc hm hw

/-- C10: `summary.totalChanges` equals the length of the materialized
changes array, and whenever the in-window comment count exceeds the
cap, `totalChanges` is strictly less than the sum of the six summary
counters, because capped comment events are counted but not
materialized. -/
theorem activityFeed_totalChanges_capped (N lo hi : Int) (hN : 0 ≤ N)
    (boards : List Feed.Board) (res : Feed.FeedResult)
    (h : Feed.getActivityFeed N lo hi (Except.ok boards) = Except.ok res) :
    res.totalChanges = res.changes.length ∧
    (N < (res.newComments : Int) →
      res.totalChanges < res.newCards + res.updatedCards + res.completedCards +
        res.newComments + res.newTasks + res.completedTasks) := by
  have hres := getActivityFeed_ok N lo hi boards res h
  obtain ⟨h1, h2, h3, h4, h5, h6⟩ := countsInv_traversal N lo hi boards
  have hlen :
      (Feed.sortByTimestampDesc
        (boards.foldl (Feed.processBoard N lo hi) Feed.initState).changes).length =
      (boards.foldl (Feed.processBoard N lo hi) Feed.initState).changes.length :=
    (List.perm_insertionSort Feed.tsGE _).length_eq
  have hsum := length_eq_typeCounts
    (boards.foldl (Feed.processBoard N lo hi) Feed.initState).changes
  constructor
  · rw [hres]
  · intro hover
    rw [hres] at hover ⊢
    simp only at hover ⊢
    omega

/-- Witness for `activityFeed_maxComments_cap`: one card with two
in-window comments under cap 1 materializes one entry, counts two, and
records both users and the card. -/
theorem activityFeed_maxComments_cap_witness :
    ((Feed.typeCount .comment_added
      ({ totalChanges := 1, newCards := 0, updatedCards := 0, completedCards := 0
         newComments := 2, newTasks := 0, completedTasks := 0
         changes := [{ timestamp := 3, type := .comment_added, boardId := "b1"
                       listId := some "l1", cardId := "c1", taskId := none
                       commentId := some "m1", userId := some "u1"
                       preview := some "hello" }]
         affectedCards := [{ cardId := "c1", cardName := "C1", boardId := "b1", listId := "l1" }]
         userIds := ["u1", "u2"] } : Feed.FeedResult).changes : Int) ≤ 1) ∧
    ({ totalChanges := 1, newCards := 0, updatedCards := 0, completedCards := 0
       newComments := 2, newTasks := 0, completedTasks := 0
       changes := [{ timestamp := 3, type := .comment_added, boardId := "b1"
                     listId := some "l1", cardId := "c1", taskId := none
                     commentId := some "m1", userId := some "u1"
                     preview := some "hello" }]
       affectedCards := [{ cardId := "c1", cardName := "C1", boardId := "b1", listId := "l1" }]
       userIds := ["u1", "u2"] } : Feed.FeedResult).newComments =
      Feed.specInWindowCommentCount 0 10
        [{ id := "b1"
           lists := [{ id := "l1"
                       cards := [{ id := "c1", name := "C1", createdAt := none
                                   updatedAt := none, isCompleted := false
                                   tasksResp := .ok []
                                   commentsResp := .ok
                                     [{ id := "m1", createdAt := some 3
                                        userId := some "u1", text := "hello" },
                                      { id := "m2", createdAt := some 4
                                        userId := some "u2", text := "world" }] }] }] }] :=
  (activityFeed_maxComments_cap 1 0 10 (by decide)
    [{ id := "b1"
       lists := [{ id := "l1"
                   cards := [{ id := "c1", name := "C1", createdAt := none
                               updatedAt := none, isCompleted := false
                               tasksResp := .ok []
                               commentsResp := .ok
                                 [{ id := "m1", createdAt := some 3
                                    userId := some "u1", text := "hello" },
                                  { id := "m2", createdAt := some 4
                                    userId := some "u2", text := "world" }] }] }] }]
    { totalChanges := 1, newCards := 0, updatedCards := 0, completedCards := 0
      newComments := 2, newTasks := 0, completedTasks := 0
      changes := [{ timestamp := 3, type := .comment_added, boardId := "b1"
                    listId := some "l1", cardId := "c1", taskId := none
                    commentId := some "m1", userId := some "u1"
                    preview := some "hello" }]
      affectedCards := [{ cardId := "c1", cardName := "C1", boardId := "b1", listId := "l1" }]
      userIds := ["u1", "u2"] }
    rfl).imp id (fun hx => hx.1)

/-- Witness for `activityFeed_totalChanges_capped` on the same capped
scenario: one materialized entry against two counted comments. -/
theorem activityFeed_totalChanges_capped_witness :
    ({ totalChanges := 1, newCards := 0, updatedCards := 0, completedCards := 0
       newComments := 2, newTasks := 0, completedTasks := 0
       changes := [{ timestamp := 3, type := .comment_added, boardId := "b1"
                     listId := some "l1", cardId := "c1", taskId := none
                     commentId := some "m1", userId := some "u1"
                     preview := some "hello" }]
       affectedCards := [{ cardId := "c1", cardName := "C1", boardId := "b1", listId := "l1" }]
       userIds := ["u1", "u2"] } : Feed.FeedResult).totalChanges =
      ({ totalChanges := 1, newCards := 0, updatedCards := 0, completedCards := 0
         newComments := 2, newTasks := 0, completedTasks := 0
         changes := [{ timestamp := 3, type := .comment_added, boardId := "b1"
                       listId := some "l1", cardId := "c1", taskId := none
                       commentId := some "m1", userId := some "u1"
                       preview := some "hello" }]
         affectedCards := [{ cardId := "c1", cardName := "C1", boardId := "b1", listId := "l1" }]
         userIds := ["u1", "u2"] } : Feed.FeedResult).changes.length ∧
    ((1 : Int) < ((2 : Nat) : Int) → (1 : Nat) < 0 + 0 + 0 + 2 + 0 + 0) :=
  activityFeed_totalChanges_capped 1 0 10 (by decide)
    [{ id := "b1"
       lists := [{ id := "l1"
                   cards := [{ id := "c1", name := "C1", createdAt := none
                               updatedAt := none, isCompleted := false
                               tasksResp := .ok []
                               commentsResp := .ok
                                 [{ id := "m1", createdAt := some 3
                                    userId := some "u1", text := "hello" },
                                  { id := "m2", createdAt := some 4
                                    userId := some "u2", text := "world" }] }] }] }]
    { totalChanges := 1, newCards := 0, updatedCards := 0, completedCards := 0
      newComments := 2, newTasks := 0, completedTasks := 0
      changes := [{ timestamp := 3, type := .comment_added, boardId := "b1"
                    listId := some "l1", cardId := "c1", taskId := none
                    commentId := some "m1", userId := some "u1"
                    preview := some "hello" }]
      affectedCards := [{ cardId := "c1", cardName := "C1", boardId := "b1", listId := "l1" }]
      userIds := ["u1", "u2"] }
    rfl

/-- Witness for `activityFeed_changes_sorted`: two cards created at
instants 5 and 7 come back most-recent first. -/
theorem activityFeed_changes_sorted_witness :
    List.Chain' (fun a b => b.timestamp ≤ a.timestamp)
      ({ totalChanges := 2, newCards := 2, updatedCards := 0, completedCards := 0
         newComments := 0, newTasks := 0, completedTasks := 0
         changes := [{ timestamp := 7, type := .card_created, boardId := "b1"
                       listId := some "l1", cardId := "cB", taskId := none
                       commentId := none, userId := none, preview := none },
                     { timestamp := 5, type := .card_created, boardId := "b1"
                       listId := some "l1", cardId := "cA", taskId := none
                       commentId := none, userId := none, preview := none }]
         affectedCards := [{ cardId := "cA", cardName := "A", boardId := "b1", listId := "l1" },
                           { cardId := "cB", cardName := "B", boardId := "b1", listId := "l1" }]
         userIds := [] } : Feed.FeedResult).changes ∧
    ∀ t : Int,
      ({ totalChanges := 2, newCards := 2, updatedCards := 0, completedCards := 0
         newComments := 0, newTasks := 0, completedTasks := 0
         changes := [{ timestamp := 7, type := .card_created, boardId := "b1"
                       listId := some "l1", cardId := "cB", taskId := none
                       commentId := none, userId := none, preview := none },
                     { timestamp := 5, type := .card_created, boardId := "b1"
                       listId := some "l1", cardId := "cA", taskId := none
                       commentId := none, userId := none, preview := none }]
         affectedCards := [{ cardId := "cA", cardName := "A", boardId := "b1", listId := "l1" },
                           { cardId := "cB", cardName := "B", boardId := "b1", listId := "l1" }]
         userIds := [] } : Feed.FeedResult).changes.filter (fun e => e.timestamp == t) =
        (([{ id := "b1"
             lists := [{ id := "l1"
                         cards := [{ id := "cA", name := "A", createdAt := some 5
                                     updatedAt := none, isCompleted := false
                                     tasksResp := .ok [], commentsResp := .ok [] },
                                   { id := "cB", name := "B", createdAt := some 7
                                     updatedAt := none, isCompleted := false
                                     tasksResp := .ok [], commentsResp := .ok [] }] }] }]
          : List Feed.Board).foldl (Feed.processBoard 20 0 10) Feed.initState).changes.filter
          (fun e => e.timestamp == t) :=
  activityFeed_changes_sorted 20 0 10
    [{ id := "b1"
       lists := [{ id := "l1"
                   cards := [{ id := "cA", name := "A", createdAt := some 5
                               updatedAt := none, isCompleted := false
                               tasksResp := .ok [], commentsResp := .ok [] },
                             { id := "cB", name := "B", createdAt := some 7
                               updatedAt := none, isCompleted := false
                               tasksResp := .ok [], commentsResp := .ok [] }] }] }]
    { totalChanges := 2, newCards := 2, updatedCards := 0, completedCards := 0
      newComments := 0, newTasks := 0, completedTasks := 0
      changes := [{ timestamp := 7, type := .card_created, boardId := "b1"
                    listId := some "l1", cardId := "cB", taskId := none
                    commentId := none, userId := none, preview := none },
                  { timestamp := 5, type := .card_created, boardId := "b1"
                    listId := some "l1", cardId := "cA", taskId := none
                    commentId := none, userId := none, preview := none }]
      affectedCards := [{ cardId := "cA", cardName := "A", boardId := "b1", listId := "l1" },
                        { cardId := "cB", cardName := "B", boardId := "b1", listId := "l1" }]
      userIds := [] }
    rfl

/-- C1 counterexample: on `cexBackend` every nested-collection fetch
named by the claim fails (the cards of list l2, the card's tasks and
comments, and the board's labels), yet `getBoardSummary` succeeds,
returning those collections as empty instead of failing the call. -/
theorem boardSummary_nested_failure_counterexample :
    BS.isOkB (BS.cexBackend.cardsResp "l2") = false ∧
    BS.isOkB (BS.cexBackend.tasksResp "c1") = false ∧
    BS.isOkB (BS.cexBackend.commentsResp "c1") = false ∧
    BS.isOkB BS.cexBackend.labelsResp = false ∧
    BS.getBoardSummary BS.cexBackend "b1" true true = Except.ok BS.cexExpected ∧
    BS.cexExpected.labels = [] := by
  refine ⟨rfl, rfl, rfl, rfl, ?_, rfl⟩
  have h0 : BS.completionPct 0 1 = 0 := by
    unfold BS.completionPct
    norm_num [round_eq]
  have hshape : BS.getBoardSummary BS.cexBackend "b1" true true =
      Except.ok
        { BS.cexExpected with
            stats :=
              { BS.cexExpected.stats with
                  completionPercentage := BS.completionPct 0 1 } } := rfl
  rw [hshape, h0]
  rfl

/-- C1 amended: failures while fetching nested collections never fail
the board summary: whenever the board fetch succeeds with an existing
board, the call returns a summary in which every failed collection
fetch (lists, a list's cards, a card's tasks, a card's comments, the
board's labels) is silently an empty collection, because each accessor
swallows its own errors. -/
theorem boardSummary_nested_failures_swallowed (be : BS.Backend) (boardId : String)
    (itd ic : Bool) (b : BS.PBoard) (hb : be.boardResp = .ok (some b)) :
    ∃ s : BS.BoardSummary,
      BS.getBoardSummary be boardId itd ic = Except.ok s ∧
      (BS.isOkB be.labelsResp = false → s.labels = []) ∧
      (BS.isOkB be.listsResp = false → s.lists = []) ∧
      (∀ ls ∈ s.lists, BS.isOkB (be.cardsResp ls.list.id) = false → ls.cards = []) ∧
      (∀ ls ∈ s.lists, ∀ cs ∈ ls.cards, itd = true →
        BS.isOkB (be.tasksResp cs.card.id) = false →
        cs.tasks = some { items := [], total := 0, completed := 0, completionPercentage := 0 }) ∧
      (∀ ls ∈ s.lists, ∀ cs ∈ ls.cards, ic = true →
        BS.isOkB (be.commentsResp cs.card.id) = false →
        cs.comments = some []) := by
  unfold BS.getBoardSummary BS.getBoard
  rw [hb]
  refine ⟨_, rfl, ?_, ?_, ?_, ?_, ?_⟩
  · intro hf
    cases hL : be.labelsResp with
    | ok x =>
      rw [hL] at hf
      exact absurd hf (by simp [BS.isOkB])
    | error e =>
      show BS.getLabels be = []
      unfold BS.getLabels
      rw [hL]
  · intro hf
    cases hL : be.listsResp with
    | ok x =>
      rw [hL] at hf
      exact absurd hf (by simp [BS.isOkB])
    | error e =>
      show (BS.getLists be).map (BS.summarizeList be itd ic) = []
      unfold BS.getLists
      rw [hL]
      rfl
  · intro ls hls hf
    have hls' : ls ∈ (BS.getLists be).map (BS.summarizeList be itd ic) := hls
    obtain ⟨l0, hl0, rfl⟩ := List.mem_map.mp hls'
    have hf' : BS.isOkB (be.cardsResp l0.id) = false := hf
    cases hC : be.cardsResp l0.id with
    | ok x =>
      rw [hC] at hf'
      exact absurd hf' (by simp [BS.isOkB])
    | error e =>
      show (BS.summarizeList be itd ic l0).cards = []
      unfold BS.summarizeList BS.getCards
      rw [hC]
      rfl
  · intro ls hls cs hcs hitd hf
    have hls' : ls ∈ (BS.getLists be).map (BS.summarizeList be itd ic) := hls
    obtain ⟨l0, hl0, rfl⟩ := List.mem_map.mp hls'
    have hcs' : cs ∈ (BS.getCards be l0.id).map (BS.summarizeCard be itd ic) := hcs
    obtain ⟨c0, hc0, rfl⟩ := List.mem_map.mp hcs'
    have hf' : BS.isOkB (be.tasksResp c0.id) = false := hf
    subst hitd
    cases hT : be.tasksResp c0.id with
    | ok x =>
      rw [hT] at hf'
      exact absurd hf' (by simp [BS.isOkB])
    | error e =>
      show (BS.summarizeCard be true ic c0).tasks =
        some { items := [], total := 0, completed := 0, completionPercentage := 0 }
      unfold BS.summarizeCard BS.getTasks
      rw [hT]
      simp [BS.completionPct]
  · intro ls hls cs hcs hic hf
    have hls' : ls ∈ (BS.getLists be).map (BS.summarizeList be itd ic) := hls
    obtain ⟨l0, hl0, rfl⟩ := List.mem_map.mp hls'
    have hcs' : cs ∈ (BS.getCards be l0.id).map (BS.summarizeCard be itd ic) := hcs
    obtain ⟨c0, hc0, rfl⟩ := List.mem_map.mp hcs'
    have hf' : BS.isOkB (be.commentsResp c0.id) = false := hf
    subst hic
    cases hM : be.commentsResp c0.id with
    | ok x =>
      rw [hM] at hf'
      exact absurd hf' (by simp [BS.isOkB])
    | error e =>
      show (BS.summarizeCard be itd true c0).comments = some []
      unfold BS.summarizeCard BS.getComments
      rw [hM]
      simp

/-- Witness for `boardSummary_nested_failures_swallowed` on the
concrete failing backend. -/
theorem boardSummary_nested_failures_swallowed_witness :
    ∃ s : BS.BoardSummary,
      BS.getBoardSummary BS.cexBackend "b1" true true = Except.ok s ∧
      (BS.isOkB BS.cexBackend.labelsResp = false → s.labels = []) ∧
      (BS.isOkB BS.cexBackend.listsResp = false → s.lists = []) ∧
      (∀ ls ∈ s.lists, BS.isOkB (BS.cexBackend.cardsResp ls.list.id) = false → ls.cards = []) ∧
      (∀ ls ∈ s.lists, ∀ cs ∈ ls.cards, true = true →
        BS.isOkB (BS.cexBackend.tasksResp cs.card.id) = false →
        cs.tasks = some { items := [], total := 0, completed := 0, completionPercentage := 0 }) ∧
      (∀ ls ∈ s.lists, ∀ cs ∈ ls.cards, true = true →
        BS.isOkB (BS.cexBackend.commentsResp cs.card.id) = false →
        cs.comments = some []) :=
  boardSummary_nested_failures_swallowed BS.cexBackend "b1" true true
    { id := "b1", name := "Board One" } rfl
